import Mathlib

/-!
Verification development for the rough dielectric scattering model
implemented in `src/bsdfs/roughdielectric.cpp` (Mitsuba renderer).

The scattering model is embedded shallowly over exact rationals.  A
3-vector in the shading frame is a triple of rationals; the external
collaborators of the plugin (the microfacet distribution, the Fresnel
evaluator, the texture lookups and the square-root routine) are fields of
a context structure `RoughDielectric`, mirroring the member variables and
the external functions the C++ class delegates to.  The random source is
a list of rationals consumed from the front (`next1D`), and the mutation
of the `BSDFQueryRecord` performed by the two `sample` overloads is
modelled by returning the updated record.  Division follows Lean's
convention `x / 0 = 0`; all claims proved below are conditioned away from
the degenerate denominators, matching the spec's edge-case policy.
-/

namespace RoughDielectricModel

/-- A direction or normal in the local shading frame (exact coordinates). -/
structure Vec3 where
  x : ℚ
  y : ℚ
  z : ℚ
deriving DecidableEq, Repr

/-- Dot product of two vectors. -/
def dot (a b : Vec3) : ℚ := a.x * b.x + a.y * b.y + a.z * b.z

/-- Scalar multiplication of a vector. -/
def smul (s : ℚ) (v : Vec3) : Vec3 := ⟨s * v.x, s * v.y, s * v.z⟩

/-- Vector addition. -/
def vadd (a b : Vec3) : Vec3 := ⟨a.x + b.x, a.y + b.y, a.z + b.z⟩

/-- Vector subtraction. -/
def vsub (a b : Vec3) : Vec3 := ⟨a.x - b.x, a.y - b.y, a.z - b.z⟩

/-- `Frame::cosTheta`: the z-coordinate of a direction expressed in the
shading frame is the cosine to the macroscopic surface normal. -/
def cosTheta (v : Vec3) : ℚ := v.z

/-- The measures a query can be evaluated with respect to. -/
inductive EMeasure where
  | eSolidAngle
  | eDiscrete
  | eLength
  | eArea
deriving DecidableEq, Repr

/-- Transported quantity: radiance or importance (adjoint). -/
inductive EQuantity where
  | eRadiance
  | eImportance
deriving DecidableEq, Repr

/-- The bits of the requested type mask that this plugin inspects
(`EGlossyReflection` and `EGlossyTransmission`). -/
structure TypeMask where
  glossyReflection : Bool
  glossyTransmission : Bool
deriving DecidableEq, Repr

/-- The mask value `EGlossyReflection`. -/
def EGlossyReflection : TypeMask := ⟨true, false⟩

/-- The mask value `EGlossyTransmission`. -/
def EGlossyTransmission : TypeMask := ⟨false, true⟩

/-- The scattering query record.  The surface point `its` is an opaque
token fed to the texture lookups; a `Spectrum` is modelled per-channel by
a single rational. -/
structure BSDFQueryRecord where
  wi : Vec3
  wo : Vec3
  its : ℚ
  component : ℤ
  typeMask : TypeMask
  quantity : EQuantity
  sampledComponent : ℤ
  sampledType : TypeMask
deriving DecidableEq, Repr

/-- The rough dielectric material: its two refractive indices, its
texture inputs (as functions of the surface point, already averaged for
the roughness channels) and the external collaborators it delegates to:
the microfacet distribution (`dist_eval`, `dist_pdf`, `dist_G`,
`dist_sample`, `dist_transformRoughness`), the Fresnel evaluator and the
square-root routine. -/
structure RoughDielectric where
  m_intIOR : ℚ
  m_extIOR : ℚ
  m_alphaU : ℚ → ℚ
  m_alphaV : ℚ → ℚ
  m_specularReflectance : ℚ → ℚ
  m_specularTransmittance : ℚ → ℚ
  dist_eval : Vec3 → ℚ → ℚ → ℚ
  dist_pdf : Vec3 → ℚ → ℚ → ℚ
  dist_G : Vec3 → Vec3 → Vec3 → ℚ → ℚ → ℚ
  dist_sample : ℚ × ℚ → ℚ → ℚ → Vec3
  dist_transformRoughness : ℚ → ℚ
  fresnel : ℚ → ℚ → ℚ → ℚ
  sqrt : ℚ → ℚ

namespace RoughDielectric

/-- The constructor's validity check on the two refractive indices
(`roughdielectric.cpp` line 184): the configuration is rejected with a
fatal error exactly when this predicate holds. -/
def iorRejected (intIOR extIOR : ℚ) : Prop :=
  intIOR < 0 ∨ extIOR < 0 ∨ intIOR = extIOR

/-- `signum` as defined in the source: `-1` for negative values and `+1`
otherwise (in particular `signum 0 = 1`). -/
def signum (value : ℚ) : ℚ := if value < 0 then -1 else 1

/-- Normalization of a vector, with the square root of the squared length
taken from the context. -/
def normalize (E : RoughDielectric) (v : Vec3) : Vec3 :=
  smul (1 / E.sqrt (dot v v)) v

/-- Helper function: reflect `wi` with respect to the (micro)normal `m`. -/
def reflect (wi m : Vec3) : Vec3 := vsub (smul (2 * dot wi m) m) wi

/-- Helper function: refract `wi` with respect to the (micro)normal `m`;
`none` signals total internal reflection (the C++ helper returns `false`
and leaves its output argument unwritten). -/
def refract (E : RoughDielectric) (wi m : Vec3) (etaI etaT : ℚ) : Option Vec3 :=
  let eta := etaI / etaT
  let c := dot wi m
  let cosThetaTSqr := 1 + eta * eta * (c * c - 1)
  if cosThetaTSqr < 0 then
    none
  else
    some (vsub (smul (eta * c - signum wi.z * E.sqrt cosThetaTSqr) m) (smul eta wi))

/-- `hasReflection` as computed in `pdf` and both `sample` overloads. -/
def hasReflection (bRec : BSDFQueryRecord) : Prop :=
  (bRec.component = -1 ∨ bRec.component = 0) ∧ bRec.typeMask.glossyReflection = true

/-- `hasTransmission` as computed in `pdf` and both `sample` overloads. -/
def hasTransmission (bRec : BSDFQueryRecord) : Prop :=
  (bRec.component = -1 ∨ bRec.component = 1) ∧ bRec.typeMask.glossyTransmission = true

instance (bRec : BSDFQueryRecord) : Decidable (hasReflection bRec) := by
  unfold hasReflection; infer_instance

instance (bRec : BSDFQueryRecord) : Decidable (hasTransmission bRec) := by
  unfold hasTransmission; infer_instance

/-- The reflection half-vector of `eval`/`pdf`: `normalize (wo + wi)`
flipped into the hemisphere matching the sign of `cosTheta wo`. -/
def reflectionHalfVector (E : RoughDielectric) (bRec : BSDFQueryRecord) : Vec3 :=
  smul (signum (cosTheta bRec.wo)) (normalize E (vadd bRec.wo bRec.wi))

/-- The transmission half-vector of `eval`/`pdf`: the index-weighted sum
of the two directions, oriented by the sign of `extIOR - intIOR`. -/
def transmissionHalfVector (E : RoughDielectric) (bRec : BSDFQueryRecord)
    (etaI etaT : ℚ) : Vec3 :=
  smul (if E.m_intIOR < E.m_extIOR then 1 else -1)
    (normalize E (vadd (smul etaI bRec.wi) (smul etaT bRec.wo)))

/-- The widened roughness pair computed inside `pdf` (lines 410-420):
texture roughness through the distribution's reparametrization, then both
values scaled by the lobe-enlargement factor `1.2 - 0.2 * sqrt |cos wi|`. -/
def pdfSampleAlphas (E : RoughDielectric) (bRec : BSDFQueryRecord) : ℚ × ℚ :=
  let alphaU := E.dist_transformRoughness (E.m_alphaU bRec.its)
  let alphaV := E.dist_transformRoughness (E.m_alphaV bRec.its)
  let factor := (1.2 : ℚ) - (0.2 : ℚ) * E.sqrt |cosTheta bRec.wi|
  (alphaU * factor, alphaV * factor)

/-- The widened roughness pair computed inside the first `sample` overload
(lines 445-459). -/
def sampleAlphas1 (E : RoughDielectric) (bRec : BSDFQueryRecord) : ℚ × ℚ :=
  let alphaU := E.dist_transformRoughness (E.m_alphaU bRec.its)
  let alphaV := E.dist_transformRoughness (E.m_alphaV bRec.its)
  let factor := (1.2 : ℚ) - (0.2 : ℚ) * E.sqrt |cosTheta bRec.wi|
  (alphaU * factor, alphaV * factor)

/-- The widened roughness pair computed inside the second `sample`
overload (lines 527-541). -/
def sampleAlphas2 (E : RoughDielectric) (bRec : BSDFQueryRecord) : ℚ × ℚ :=
  let alphaU := E.dist_transformRoughness (E.m_alphaU bRec.its)
  let alphaV := E.dist_transformRoughness (E.m_alphaV bRec.its)
  let factor := (1.2 : ℚ) - (0.2 : ℚ) * E.sqrt |cosTheta bRec.wi|
  (alphaU * factor, alphaV * factor)

/-- `RoughDielectric::eval` (lines 283-358), per spectral channel. -/
def eval (E : RoughDielectric) (bRec : BSDFQueryRecord) (measure : EMeasure) : ℚ :=
  if measure = EMeasure.eSolidAngle then
    let etaI := if cosTheta bRec.wi < 0 then E.m_intIOR else E.m_extIOR
    let etaT := if cosTheta bRec.wi < 0 then E.m_extIOR else E.m_intIOR
    let alphaU := E.dist_transformRoughness (E.m_alphaU bRec.its)
    let alphaV := E.dist_transformRoughness (E.m_alphaV bRec.its)
    if 0 < cosTheta bRec.wi * cosTheta bRec.wo then
      if (bRec.component ≠ -1 ∧ bRec.component ≠ 0) ∨
          bRec.typeMask.glossyReflection = false then 0
      else
        let H := reflectionHalfVector E bRec
        let D := E.dist_eval H alphaU alphaV
        if D = 0 then 0
        else
          let F := E.fresnel (dot bRec.wi H) E.m_extIOR E.m_intIOR
          let G := E.dist_G bRec.wi bRec.wo H alphaU alphaV
          E.m_specularReflectance bRec.its * (F * D * G / (4 * |cosTheta bRec.wi|))
    else
      if (bRec.component ≠ -1 ∧ bRec.component ≠ 1) ∨
          bRec.typeMask.glossyTransmission = false then 0
      else
        let H := transmissionHalfVector E bRec etaI etaT
        let D := E.dist_eval H alphaU alphaV
        if D = 0 then 0
        else
          let F := E.fresnel (dot bRec.wi H) E.m_extIOR E.m_intIOR
          let G := E.dist_G bRec.wi bRec.wo H alphaU alphaV
          let sqrtDenom := etaI * dot bRec.wi H + etaT * dot bRec.wo H
          let value := ((1 - F) * D * G * etaT * etaT *
              dot bRec.wi H * dot bRec.wo H) /
              (cosTheta bRec.wi * sqrtDenom * sqrtDenom)
          let value2 := if bRec.quantity = EQuantity.eRadiance then
              value * ((etaI * etaI) / (etaT * etaT)) else value
          E.m_specularTransmittance bRec.its * |value2|
  else 0

/-- The tail of `RoughDielectric::pdf` (lines 410-431): the microsurface
normal sampling density at the widened roughness, Fresnel-weighted
exactly when both components are requested, times the half-direction
Jacobian, in absolute value. -/
def pdfTail (E : RoughDielectric) (bRec : BSDFQueryRecord) (H : Vec3)
    (dwh_dwo : ℚ) : ℚ :=
  let sAlphas := pdfSampleAlphas E bRec
  let prob := E.dist_pdf H sAlphas.1 sAlphas.2
  let prob2 := if hasTransmission bRec ∧ hasReflection bRec then
      prob * (if 0 < cosTheta bRec.wi * cosTheta bRec.wo then
          E.fresnel (dot bRec.wi H) E.m_extIOR E.m_intIOR
        else 1 - E.fresnel (dot bRec.wi H) E.m_extIOR E.m_intIOR)
    else prob
  |prob2 * dwh_dwo|

/-- `RoughDielectric::pdf` (lines 360-431), the solid-angle sampling
density of the sampling procedure. -/
def pdf (E : RoughDielectric) (bRec : BSDFQueryRecord) (measure : EMeasure) : ℚ :=
  if measure = EMeasure.eSolidAngle then
    let etaI := if cosTheta bRec.wi < 0 then E.m_intIOR else E.m_extIOR
    let etaT := if cosTheta bRec.wi < 0 then E.m_extIOR else E.m_intIOR
    if 0 < cosTheta bRec.wi * cosTheta bRec.wo then
      if (bRec.component ≠ -1 ∧ bRec.component ≠ 0) ∨
          bRec.typeMask.glossyReflection = false then 0
      else
        let H := reflectionHalfVector E bRec
        pdfTail E bRec H (1 / (4 * dot bRec.wo H))
    else
      if (bRec.component ≠ -1 ∧ bRec.component ≠ 1) ∨
          bRec.typeMask.glossyTransmission = false then 0
      else
        let H := transmissionHalfVector E bRec etaI etaT
        let sqrtDenom := etaI * dot bRec.wi H + etaT * dot bRec.wo H
        pdfTail E bRec H (etaT * etaT * dot bRec.wo H / (sqrtDenom * sqrtDenom))
  else 0

/-- `Sampler::next1D` on the modelled random stream: take the next value
from the front of the list (an exhausted stream yields `0`). -/
def next1D : List ℚ → ℚ × List ℚ
  | [] => (0, [])
  | x :: rest => (x, rest)

/-- First `RoughDielectric::sample` overload (lines 433-513).  Returns the
updated query record, the remaining random stream and the importance
weight.  A zero weight signals a rejected sample. -/
def sample (E : RoughDielectric) (bRec : BSDFQueryRecord) (sampler : List ℚ)
    (s : ℚ × ℚ) : BSDFQueryRecord × List ℚ × ℚ :=
  if ¬hasReflection bRec ∧ ¬hasTransmission bRec then (bRec, sampler, 0)
  else
    let alphaU := E.dist_transformRoughness (E.m_alphaU bRec.its)
    let alphaV := E.dist_transformRoughness (E.m_alphaV bRec.its)
    let sAlphas := sampleAlphas1 E bRec
    let m := E.dist_sample s sAlphas.1 sAlphas.2
    let step : Bool × List ℚ :=
      if hasReflection bRec ∧ hasTransmission bRec then
        let F := E.fresnel (dot bRec.wi m) E.m_extIOR E.m_intIOR
        let draw := next1D sampler
        (if F < draw.1 then false else true, draw.2)
      else (if hasReflection bRec then true else false, sampler)
    let choseReflection := step.1
    let samplerOut := step.2
    let outcome : BSDFQueryRecord × Option ℚ :=
      if choseReflection = true then
        let wo := reflect bRec.wi m
        let bRec2 := { bRec with wo := wo, sampledComponent := 0, sampledType := EGlossyReflection }
        if cosTheta bRec.wi * cosTheta wo ≤ 0 then (bRec2, none)
        else (bRec2, some (E.m_specularReflectance bRec.its))
      else
        let etaI := if cosTheta bRec.wi < 0 then E.m_intIOR else E.m_extIOR
        let etaT := if cosTheta bRec.wi < 0 then E.m_extIOR else E.m_intIOR
        match refract E bRec.wi m etaI etaT with
        | none => (bRec, none)
        | some wo =>
          let bRec2 := { bRec with wo := wo, sampledComponent := 1, sampledType := EGlossyTransmission }
          if 0 ≤ cosTheta bRec.wi * cosTheta wo then (bRec2, none)
          else
            (bRec2, some (E.m_specularTransmittance bRec.its *
              (if bRec.quantity = EQuantity.eRadiance then
                (etaI * etaI) / (etaT * etaT) else 1)))
    match outcome with
    | (bRec2, none) => (bRec2, samplerOut, 0)
    | (bRec2, some result) =>
      let numerator := E.dist_eval m alphaU alphaV *
        E.dist_G bRec.wi bRec2.wo m alphaU alphaV * dot bRec.wi m
      let denominator := E.dist_pdf m sAlphas.1 sAlphas.2 * cosTheta bRec.wi
      (bRec2, samplerOut, result * |numerator / denominator|)

/-- Second `RoughDielectric::sample` overload (lines 515-587), which also
reports the density it used through an out-parameter.  The `Option ℚ`
component is that out-parameter: `none` means the C++ code returned
without writing it. -/
def samplePdf (E : RoughDielectric) (bRec : BSDFQueryRecord) (sampler : List ℚ)
    (s : ℚ × ℚ) : BSDFQueryRecord × List ℚ × Option ℚ × ℚ :=
  if ¬hasReflection bRec ∧ ¬hasTransmission bRec then (bRec, sampler, none, 0)
  else
    let sAlphas := sampleAlphas2 E bRec
    let m := E.dist_sample s sAlphas.1 sAlphas.2
    let step : Bool × List ℚ :=
      if hasReflection bRec ∧ hasTransmission bRec then
        let F := E.fresnel (dot bRec.wi m) E.m_extIOR E.m_intIOR
        let draw := next1D sampler
        (if F < draw.1 then false else true, draw.2)
      else (if hasReflection bRec then true else false, sampler)
    let choseReflection := step.1
    let samplerOut := step.2
    let outcome : BSDFQueryRecord × Bool :=
      if choseReflection = true then
        let wo := reflect bRec.wi m
        let bRec2 := { bRec with wo := wo, sampledComponent := 0, sampledType := EGlossyReflection }
        if cosTheta bRec.wi * cosTheta wo ≤ 0 then (bRec2, false)
        else (bRec2, true)
      else
        let etaI := if cosTheta bRec.wi < 0 then E.m_intIOR else E.m_extIOR
        let etaT := if cosTheta bRec.wi < 0 then E.m_extIOR else E.m_intIOR
        match refract E bRec.wi m etaI etaT with
        | none => (bRec, false)
        | some wo =>
          let bRec2 := { bRec with wo := wo, sampledComponent := 1, sampledType := EGlossyTransmission }
          if 0 ≤ cosTheta bRec.wi * cosTheta wo then (bRec2, false)
          else (bRec2, true)
    match outcome with
    | (bRec2, false) => (bRec2, samplerOut, none, 0)
    | (bRec2, true) =>
      let p := pdf E bRec2 EMeasure.eSolidAngle
      if p = 0 then (bRec2, samplerOut, some 0, 0)
      else (bRec2, samplerOut, some p, eval E bRec2 EMeasure.eSolidAngle)

/-- A concrete square-root table adequate for the concrete queries used
in the closed instances below (exact on the perfect squares 0, 1, 4). -/
def exSqrt : ℚ → ℚ := fun x => if x = 4 then 2 else if x = 0 then 0 else 1

/-- A concrete material instance: indices 1 (exterior) and 2 (interior),
constant unit textures, a microfacet distribution whose density, sampling
density and shadowing term are constantly one and which always samples
the macroscopic normal, and a constant Fresnel evaluator of value 1/2. -/
def exE : RoughDielectric where
  m_intIOR := 2
  m_extIOR := 1
  m_alphaU := fun _ => 1/10
  m_alphaV := fun _ => 1/10
  m_specularReflectance := fun _ => 1
  m_specularTransmittance := fun _ => 1
  dist_eval := fun _ _ _ => 1
  dist_pdf := fun _ _ _ => 1
  dist_G := fun _ _ _ _ _ => 1
  dist_sample := fun _ _ _ => ⟨0, 0, 1⟩
  dist_transformRoughness := fun a => a
  fresnel := fun _ _ _ => 1/2
  sqrt := exSqrt

/-- A concrete query at normal incidence with both components enabled. -/
def exRec : BSDFQueryRecord where
  wi := ⟨0, 0, 1⟩
  wo := ⟨0, 0, 1⟩
  its := 0
  component := -1
  typeMask := ⟨true, true⟩
  quantity := EQuantity.eRadiance
  sampledComponent := -1
  sampledType := ⟨false, false⟩

/-- The same query restricted to the reflective component only. -/
def exRecReflOnly : BSDFQueryRecord := { exRec with typeMask := ⟨true, false⟩ }

/-- A concrete transmissive query: outgoing direction on the opposite
side of the interface. -/
def exRecTrans : BSDFQueryRecord := { exRec with wo := ⟨0, 0, -1⟩ }

/-- Claim C8: the constructor is specified (and its own error message
demands) that both refractive indices be strictly positive and mutually
distinct, but the check `intIOR < 0 || extIOR < 0 || intIOR == extIOR`
only rejects strictly negative indices: an interior index of exactly `0`
is accepted, while negative and equal indices are rejected as specified. -/
theorem iorCheck_accepts_zero_index :
    ¬ iorRejected 0 (3/2) ∧
    iorRejected (-1) (3/2) ∧
    iorRejected (3/2) (3/2) := by
  norm_num [iorRejected]

/-- Claim C5: the lobe-widening applied before the microfacet sampling
density is computed in `pdf` coincides with the widening used to draw the
micro-normal in both `sample` overloads, and it scales both transformed
roughness values by the common factor `1.2 - 0.2 * sqrt |cos wi|`. -/
theorem widened_roughness_consistency (E : RoughDielectric)
    (bRec : BSDFQueryRecord) :
    pdfSampleAlphas E bRec = sampleAlphas1 E bRec ∧
    pdfSampleAlphas E bRec = sampleAlphas2 E bRec ∧
    pdfSampleAlphas E bRec =
      (E.dist_transformRoughness (E.m_alphaU bRec.its) *
         ((1.2 : ℚ) - (0.2 : ℚ) * E.sqrt |cosTheta bRec.wi|),
       E.dist_transformRoughness (E.m_alphaV bRec.its) *
         ((1.2 : ℚ) - (0.2 : ℚ) * E.sqrt |cosTheta bRec.wi|)) :=
  ⟨rfl, rfl, rfl⟩

/-- Claim C7: whenever the second `sample` overload writes its density
out-parameter, the written value is exactly `pdf` re-evaluated at the
updated query record (solid-angle measure), and the returned spectrum is
zero when that density is zero and the re-evaluated `eval` value
otherwise.  (On the early rejection paths the out-parameter is `none`,
i.e. left unwritten.) -/
theorem samplePdf_recomputes_density (E : RoughDielectric)
    (bRec : BSDFQueryRecord) (sampler : List ℚ) (s : ℚ × ℚ) :
    (samplePdf E bRec sampler s).2.2.1 = none ∨
    ((samplePdf E bRec sampler s).2.2.1 =
        some (pdf E (samplePdf E bRec sampler s).1 EMeasure.eSolidAngle) ∧
      (samplePdf E bRec sampler s).2.2.2 =
        (if pdf E (samplePdf E bRec sampler s).1 EMeasure.eSolidAngle = 0 then 0
         else eval E (samplePdf E bRec sampler s).1 EMeasure.eSolidAngle)) := by
  simp only [samplePdf]
  repeat' split
  all_goals first
    | exact Or.inl rfl
    | simp_all

/-- Claim C10: the extra scalar random draw deciding between reflection
and transmission is consumed by either `sample` overload exactly when the
component mask enables both components; with a single enabled component
the random stream is returned untouched. -/
theorem sample_next1D_consumption (E : RoughDielectric)
    (bRec : BSDFQueryRecord) (sampler : List ℚ) (s : ℚ × ℚ) :
    (sample E bRec sampler s).2.1 =
      (if hasReflection bRec ∧ hasTransmission bRec then (next1D sampler).2
       else sampler) ∧
    (samplePdf E bRec sampler s).2.1 =
      (if hasReflection bRec ∧ hasTransmission bRec then (next1D sampler).2
       else sampler) := by
  constructor <;>
  · simp only [sample, samplePdf]
    repeat' split
    all_goals first
      | rfl
      | simp_all

/-- The reflective branch of `eval`, in closed form. -/
lemma eval_reflective_aux (E : RoughDielectric) (bRec : BSDFQueryRecord)
    (h1 : 0 < cosTheta bRec.wi * cosTheta bRec.wo)
    (h2 : bRec.component = -1 ∨ bRec.component = 0)
    (h3 : bRec.typeMask.glossyReflection = true)
    (h4 : E.dist_eval (reflectionHalfVector E bRec)
        (E.dist_transformRoughness (E.m_alphaU bRec.its))
        (E.dist_transformRoughness (E.m_alphaV bRec.its)) ≠ 0) :
    eval E bRec EMeasure.eSolidAngle =
      E.m_specularReflectance bRec.its *
        (E.fresnel (dot bRec.wi (reflectionHalfVector E bRec))
            E.m_extIOR E.m_intIOR *
          E.dist_eval (reflectionHalfVector E bRec)
            (E.dist_transformRoughness (E.m_alphaU bRec.its))
            (E.dist_transformRoughness (E.m_alphaV bRec.its)) *
          E.dist_G bRec.wi bRec.wo (reflectionHalfVector E bRec)
            (E.dist_transformRoughness (E.m_alphaU bRec.its))
            (E.dist_transformRoughness (E.m_alphaV bRec.its)) /
          (4 * |cosTheta bRec.wi|)) := by
  rcases h2 with h2 | h2 <;> simp [eval, h1, h2, h3, h4]

/-- Claim C4: `eval` returns zero for every measure other than the
solid-angle measure; and for a solid-angle query whose directions lie on
the same side of the interface, with the reflective component enabled and
a nonzero microfacet density at the half-vector
`normalize (wi + wo) * sign (cos wo)`, `eval` returns the reflectance
texture value times `F * D * G / (4 * |cos wi|)`. -/
theorem eval_solid_angle_reflective (E : RoughDielectric)
    (bRec : BSDFQueryRecord) (measure : EMeasure) :
    (measure ≠ EMeasure.eSolidAngle → eval E bRec measure = 0) ∧
    (0 < cosTheta bRec.wi * cosTheta bRec.wo →
      (bRec.component = -1 ∨ bRec.component = 0) →
      bRec.typeMask.glossyReflection = true →
      E.dist_eval (reflectionHalfVector E bRec)
          (E.dist_transformRoughness (E.m_alphaU bRec.its))
          (E.dist_transformRoughness (E.m_alphaV bRec.its)) ≠ 0 →
      eval E bRec EMeasure.eSolidAngle =
        E.m_specularReflectance bRec.its *
          (E.fresnel (dot bRec.wi (reflectionHalfVector E bRec))
              E.m_extIOR E.m_intIOR *
            E.dist_eval (reflectionHalfVector E bRec)
              (E.dist_transformRoughness (E.m_alphaU bRec.its))
              (E.dist_transformRoughness (E.m_alphaV bRec.its)) *
            E.dist_G bRec.wi bRec.wo (reflectionHalfVector E bRec)
              (E.dist_transformRoughness (E.m_alphaU bRec.its))
              (E.dist_transformRoughness (E.m_alphaV bRec.its)) /
            (4 * |cosTheta bRec.wi|))) := by
  constructor
  · intro h
    simp [eval, h]
  · intro h1 h2 h3 h4
    exact eval_reflective_aux E bRec h1 h2 h3 h4

/-- Claim C4 witness: a concrete reflective solid-angle query at normal
incidence satisfying all hypotheses of the theorem. -/
theorem eval_solid_angle_reflective_witness :
    (0 < cosTheta exRec.wi * cosTheta exRec.wo) ∧
    eval exE exRec EMeasure.eSolidAngle =
      exE.m_specularReflectance exRec.its *
        (exE.fresnel (dot exRec.wi (reflectionHalfVector exE exRec))
            exE.m_extIOR exE.m_intIOR *
          exE.dist_eval (reflectionHalfVector exE exRec)
            (exE.dist_transformRoughness (exE.m_alphaU exRec.its))
            (exE.dist_transformRoughness (exE.m_alphaV exRec.its)) *
          exE.dist_G exRec.wi exRec.wo (reflectionHalfVector exE exRec)
            (exE.dist_transformRoughness (exE.m_alphaU exRec.its))
            (exE.dist_transformRoughness (exE.m_alphaV exRec.its)) /
          (4 * |cosTheta exRec.wi|)) :=
  ⟨by norm_num [exRec, cosTheta],
   (eval_solid_angle_reflective exE exRec EMeasure.eSolidAngle).2
    (by norm_num [exRec, cosTheta]) (Or.inl rfl) rfl
    (by norm_num [exE])⟩

/-- Rearrangement of the transmissive evaluation value: the radiance
correction factor `(etaI*etaI)/(etaT*etaT)` is nonnegative and can be
pulled out of the absolute value as `(etaI/etaT)^2`. -/
lemma transWeightRearrange (specT F D G a b wiH woH cw : ℚ) :
    specT * |(1 - F) * D * G * b * b * wiH * woH /
        (cw * (a * wiH + b * woH) * (a * wiH + b * woH)) * (a * a / (b * b))| =
    specT * ((a / b) ^ 2 *
      |(1 - F) * D * G * b ^ 2 * wiH * woH /
        (cw * (a * wiH + b * woH) ^ 2)|) := by
  have e2 : |a * a / (b * b)| = (a / b) ^ 2 := by
    rw [abs_div, abs_mul_self, abs_mul_self, div_pow, pow_two, pow_two]
  have e1 : |(1 - F) * D * G * b * b * wiH * woH /
        (cw * (a * wiH + b * woH) * (a * wiH + b * woH))| =
      |(1 - F) * D * G * b ^ 2 * wiH * woH /
        (cw * (a * wiH + b * woH) ^ 2)| := by
    congr 1
    ring
  rw [abs_mul, e2, e1]
  ring

set_option maxHeartbeats 1600000 in
/-- The transmissive branch of `eval`, in closed form. -/
lemma eval_transmissive_aux (E : RoughDielectric)
    (bRec : BSDFQueryRecord)
    (hside : cosTheta bRec.wi * cosTheta bRec.wo < 0)
    (hcomp : bRec.component = -1 ∨ bRec.component = 1)
    (hmask : bRec.typeMask.glossyTransmission = true)
    (hD : E.dist_eval
        (transmissionHalfVector E bRec
          (if cosTheta bRec.wi < 0 then E.m_intIOR else E.m_extIOR)
          (if cosTheta bRec.wi < 0 then E.m_extIOR else E.m_intIOR))
        (E.dist_transformRoughness (E.m_alphaU bRec.its))
        (E.dist_transformRoughness (E.m_alphaV bRec.its)) ≠ 0) :
    eval E bRec EMeasure.eSolidAngle =
      (let etaI := if cosTheta bRec.wi < 0 then E.m_intIOR else E.m_extIOR
       let etaT := if cosTheta bRec.wi < 0 then E.m_extIOR else E.m_intIOR
       let H := transmissionHalfVector E bRec etaI etaT
       let F := E.fresnel (dot bRec.wi H) E.m_extIOR E.m_intIOR
       let D := E.dist_eval H
         (E.dist_transformRoughness (E.m_alphaU bRec.its))
         (E.dist_transformRoughness (E.m_alphaV bRec.its))
       let G := E.dist_G bRec.wi bRec.wo H
         (E.dist_transformRoughness (E.m_alphaU bRec.its))
         (E.dist_transformRoughness (E.m_alphaV bRec.its))
       E.m_specularTransmittance bRec.its *
         ((if bRec.quantity = EQuantity.eRadiance then (etaI / etaT) ^ 2 else 1) *
          |(1 - F) * D * G * etaT ^ 2 * dot bRec.wi H * dot bRec.wo H /
            (cosTheta bRec.wi *
              (etaI * dot bRec.wi H + etaT * dot bRec.wo H) ^ 2)|)) := by
  have hside2 : ¬ (0 < cosTheta bRec.wi * cosTheta bRec.wo) := by linarith
  rcases hcomp with h2 | h2 <;>
  · simp only [eval, hside2, h2, hmask, if_true, if_false, reduceIte,
      ne_eq, not_false_eq_true, not_true_eq_false, false_and, and_false,
      false_or, or_false, if_neg, hD]
    rw [if_neg (by simp)]
    set a := (if cosTheta bRec.wi < 0 then E.m_intIOR else E.m_extIOR) with ha
    set b := (if cosTheta bRec.wi < 0 then E.m_extIOR else E.m_intIOR) with hb
    set H := transmissionHalfVector E bRec a b with hH
    set wiH := dot bRec.wi H with hwiH
    set woH := dot bRec.wo H with hwoH
    by_cases hq : bRec.quantity = EQuantity.eRadiance
    · simp only [hq, if_true, reduceIte]
      exact transWeightRearrange _ _ _ _ _ _ _ _ _
    · simp only [hq, if_false, reduceIte, one_mul]
      congr 1
      congr 1
      ring

/-- Claim C2: for a solid-angle query with the two directions on opposite
sides, the transmissive component enabled and a nonzero microfacet
density at the transmission half-vector, `eval` returns the transmittance
texture value times
`|(1-F) * D * G * etaT^2 * cos(wi,H) * cos(wo,H) / (cos wi * (etaI*cos(wi,H) + etaT*cos(wo,H))^2)|`
with `etaI`/`etaT` the exterior/interior indices swapped when
`cos wi < 0`, additionally multiplied by `(etaI/etaT)^2` exactly when the
transported quantity is radiance. -/
theorem eval_transmissive_formula (E : RoughDielectric)
    (bRec : BSDFQueryRecord)
    (hside : cosTheta bRec.wi * cosTheta bRec.wo < 0)
    (hcomp : bRec.component = -1 ∨ bRec.component = 1)
    (hmask : bRec.typeMask.glossyTransmission = true)
    (hD : E.dist_eval
        (transmissionHalfVector E bRec
          (if cosTheta bRec.wi < 0 then E.m_intIOR else E.m_extIOR)
          (if cosTheta bRec.wi < 0 then E.m_extIOR else E.m_intIOR))
        (E.dist_transformRoughness (E.m_alphaU bRec.its))
        (E.dist_transformRoughness (E.m_alphaV bRec.its)) ≠ 0) :
    eval E bRec EMeasure.eSolidAngle =
      (let etaI := if cosTheta bRec.wi < 0 then E.m_intIOR else E.m_extIOR
       let etaT := if cosTheta bRec.wi < 0 then E.m_extIOR else E.m_intIOR
       let H := transmissionHalfVector E bRec etaI etaT
       let F := E.fresnel (dot bRec.wi H) E.m_extIOR E.m_intIOR
       let D := E.dist_eval H
         (E.dist_transformRoughness (E.m_alphaU bRec.its))
         (E.dist_transformRoughness (E.m_alphaV bRec.its))
       let G := E.dist_G bRec.wi bRec.wo H
         (E.dist_transformRoughness (E.m_alphaU bRec.its))
         (E.dist_transformRoughness (E.m_alphaV bRec.its))
       E.m_specularTransmittance bRec.its *
         ((if bRec.quantity = EQuantity.eRadiance then (etaI / etaT) ^ 2 else 1) *
          |(1 - F) * D * G * etaT ^ 2 * dot bRec.wi H * dot bRec.wo H /
            (cosTheta bRec.wi *
              (etaI * dot bRec.wi H + etaT * dot bRec.wo H) ^ 2)|)) :=
  eval_transmissive_aux E bRec hside hcomp hmask hD

/-- Claim C2 witness: a concrete transmissive solid-angle query
satisfying all hypotheses of the theorem. -/
theorem eval_transmissive_formula_witness :
    (cosTheta exRecTrans.wi * cosTheta exRecTrans.wo < 0) ∧
    eval exE exRecTrans EMeasure.eSolidAngle =
      (let etaI := if cosTheta exRecTrans.wi < 0 then exE.m_intIOR else exE.m_extIOR
       let etaT := if cosTheta exRecTrans.wi < 0 then exE.m_extIOR else exE.m_intIOR
       let H := transmissionHalfVector exE exRecTrans etaI etaT
       let F := exE.fresnel (dot exRecTrans.wi H) exE.m_extIOR exE.m_intIOR
       let D := exE.dist_eval H
         (exE.dist_transformRoughness (exE.m_alphaU exRecTrans.its))
         (exE.dist_transformRoughness (exE.m_alphaV exRecTrans.its))
       let G := exE.dist_G exRecTrans.wi exRecTrans.wo H
         (exE.dist_transformRoughness (exE.m_alphaU exRecTrans.its))
         (exE.dist_transformRoughness (exE.m_alphaV exRecTrans.its))
       exE.m_specularTransmittance exRecTrans.its *
         ((if exRecTrans.quantity = EQuantity.eRadiance then (etaI / etaT) ^ 2 else 1) *
          |(1 - F) * D * G * etaT ^ 2 * dot exRecTrans.wi H * dot exRecTrans.wo H /
            (cosTheta exRecTrans.wi *
              (etaI * dot exRecTrans.wi H + etaT * dot exRecTrans.wo H) ^ 2)|)) :=
  ⟨by norm_num [exRecTrans, exRec, cosTheta],
   eval_transmissive_formula exE exRecTrans
     (by norm_num [exRecTrans, exRec, cosTheta]) (Or.inl rfl) rfl
     (by norm_num [exE])⟩

/-- Claim C3: in a solid-angle `pdf` query the microfacet sampling
density at the half-vector is weighted by the Fresnel reflectance `F`
(reflective classification) or `1 - F` (transmissive classification)
exactly when the component mask enables both components; when exactly one
component is enabled and matches the classification, the density is
`|D_pdf * Jacobian|` with no Fresnel factor, where the Jacobian is
`1/(4*cos(wo,H))` for reflection and
`etaT^2*cos(wo,H)/(etaI*cos(wi,H)+etaT*cos(wo,H))^2` for transmission.
This auxiliary lemma carries the proof; the claim theorem below restates
it. -/
lemma pdf_weighting_aux (E : RoughDielectric) (bRec : BSDFQueryRecord) :
    (0 < cosTheta bRec.wi * cosTheta bRec.wo →
      (let H := reflectionHalfVector E bRec
       let sA := pdfSampleAlphas E bRec
       (hasReflection bRec ∧ hasTransmission bRec →
         pdf E bRec EMeasure.eSolidAngle =
           |E.dist_pdf H sA.1 sA.2 *
             E.fresnel (dot bRec.wi H) E.m_extIOR E.m_intIOR *
             (1 / (4 * dot bRec.wo H))|) ∧
       (hasReflection bRec ∧ ¬ hasTransmission bRec →
         pdf E bRec EMeasure.eSolidAngle =
           |E.dist_pdf H sA.1 sA.2 * (1 / (4 * dot bRec.wo H))|))) ∧
    (cosTheta bRec.wi * cosTheta bRec.wo < 0 →
      (let etaI := if cosTheta bRec.wi < 0 then E.m_intIOR else E.m_extIOR
       let etaT := if cosTheta bRec.wi < 0 then E.m_extIOR else E.m_intIOR
       let H := transmissionHalfVector E bRec etaI etaT
       let sA := pdfSampleAlphas E bRec
       (hasReflection bRec ∧ hasTransmission bRec →
         pdf E bRec EMeasure.eSolidAngle =
           |E.dist_pdf H sA.1 sA.2 *
             (1 - E.fresnel (dot bRec.wi H) E.m_extIOR E.m_intIOR) *
             (etaT ^ 2 * dot bRec.wo H /
               (etaI * dot bRec.wi H + etaT * dot bRec.wo H) ^ 2)|) ∧
       (¬ hasReflection bRec ∧ hasTransmission bRec →
         pdf E bRec EMeasure.eSolidAngle =
           |E.dist_pdf H sA.1 sA.2 *
             (etaT ^ 2 * dot bRec.wo H /
               (etaI * dot bRec.wi H + etaT * dot bRec.wo H) ^ 2)|))) := by
  constructor
  · intro hside
    constructor
    · rintro ⟨⟨hcr, hmr⟩, ⟨hct, hmt⟩⟩
      simp only [pdf, pdfTail, if_true]
      rw [if_pos hside, if_neg (by simp [hmr]; omega),
        if_pos ⟨⟨hct, hmt⟩, ⟨hcr, hmr⟩⟩, if_pos hside]
    · rintro ⟨⟨hcr, hmr⟩, hnt⟩
      simp only [pdf, pdfTail, if_true]
      rw [if_pos hside, if_neg (by simp [hmr]; omega),
        if_neg (fun h => hnt h.1)]
  · intro hside
    have hns : ¬ 0 < cosTheta bRec.wi * cosTheta bRec.wo := by linarith
    constructor
    · rintro ⟨⟨hcr, hmr⟩, ⟨hct, hmt⟩⟩
      simp only [pdf, pdfTail, if_true]
      rw [if_neg hns, if_neg (by simp [hmt]; omega),
        if_pos ⟨⟨hct, hmt⟩, ⟨hcr, hmr⟩⟩, if_neg hns]
      congr 1
      ring
    · rintro ⟨hnr, ⟨hct, hmt⟩⟩
      simp only [pdf, pdfTail, if_true]
      rw [if_neg hns, if_neg (by simp [hmt]; omega),
        if_neg (fun h => hnr h.2)]
      congr 1
      ring

/-- Claim C3: in a solid-angle `pdf` query the microfacet sampling
density at the half-vector is weighted by the Fresnel reflectance `F`
(reflective classification) or `1 - F` (transmissive classification)
exactly when the component mask enables both components; when exactly one
component is enabled and matches the classification, the density is
`|D_pdf * Jacobian|` with no Fresnel factor. -/
theorem pdf_fresnel_weighting (E : RoughDielectric) (bRec : BSDFQueryRecord) :
    (0 < cosTheta bRec.wi * cosTheta bRec.wo →
      (let H := reflectionHalfVector E bRec
       let sA := pdfSampleAlphas E bRec
       (hasReflection bRec ∧ hasTransmission bRec →
         pdf E bRec EMeasure.eSolidAngle =
           |E.dist_pdf H sA.1 sA.2 *
             E.fresnel (dot bRec.wi H) E.m_extIOR E.m_intIOR *
             (1 / (4 * dot bRec.wo H))|) ∧
       (hasReflection bRec ∧ ¬ hasTransmission bRec →
         pdf E bRec EMeasure.eSolidAngle =
           |E.dist_pdf H sA.1 sA.2 * (1 / (4 * dot bRec.wo H))|))) ∧
    (cosTheta bRec.wi * cosTheta bRec.wo < 0 →
      (let etaI := if cosTheta bRec.wi < 0 then E.m_intIOR else E.m_extIOR
       let etaT := if cosTheta bRec.wi < 0 then E.m_extIOR else E.m_intIOR
       let H := transmissionHalfVector E bRec etaI etaT
       let sA := pdfSampleAlphas E bRec
       (hasReflection bRec ∧ hasTransmission bRec →
         pdf E bRec EMeasure.eSolidAngle =
           |E.dist_pdf H sA.1 sA.2 *
             (1 - E.fresnel (dot bRec.wi H) E.m_extIOR E.m_intIOR) *
             (etaT ^ 2 * dot bRec.wo H /
               (etaI * dot bRec.wi H + etaT * dot bRec.wo H) ^ 2)|) ∧
       (¬ hasReflection bRec ∧ hasTransmission bRec →
         pdf E bRec EMeasure.eSolidAngle =
           |E.dist_pdf H sA.1 sA.2 *
             (etaT ^ 2 * dot bRec.wo H /
               (etaI * dot bRec.wi H + etaT * dot bRec.wo H) ^ 2)|))) :=
  pdf_weighting_aux E bRec

/-- Claim C3 witness: a concrete both-components reflective query. -/
theorem pdf_fresnel_weighting_witness :
    (0 < cosTheta exRec.wi * cosTheta exRec.wo) ∧
    pdf exE exRec EMeasure.eSolidAngle =
      |exE.dist_pdf (reflectionHalfVector exE exRec)
          (pdfSampleAlphas exE exRec).1 (pdfSampleAlphas exE exRec).2 *
        exE.fresnel (dot exRec.wi (reflectionHalfVector exE exRec))
          exE.m_extIOR exE.m_intIOR *
        (1 / (4 * dot exRec.wo (reflectionHalfVector exE exRec)))| :=
  ⟨by norm_num [exRec, cosTheta],
   ((pdf_fresnel_weighting exE exRec).1 (by norm_num [exRec, cosTheta])).1
     ⟨⟨Or.inl rfl, rfl⟩, ⟨Or.inl rfl, rfl⟩⟩⟩

/-- The two sample overloads compute the widened roughness identically. -/
lemma sampleAlphas_eq (E : RoughDielectric) (bRec : BSDFQueryRecord) :
    sampleAlphas1 E bRec = sampleAlphas2 E bRec := rfl

/-- Characterization of the first `sample` overload when the reflective
branch is chosen (reflection enabled, and with both components enabled
the Fresnel test keeps the initial reflective choice). -/
lemma sample_reflection_eq (E : RoughDielectric) (bRec : BSDFQueryRecord)
    (sampler : List ℚ) (s : ℚ × ℚ) (hR : hasReflection bRec)
    (hch : hasTransmission bRec →
      ¬ (E.fresnel (dot bRec.wi (E.dist_sample s (sampleAlphas1 E bRec).1
          (sampleAlphas1 E bRec).2)) E.m_extIOR E.m_intIOR <
        (next1D sampler).1)) :
    sample E bRec sampler s =
      (let m := E.dist_sample s (sampleAlphas1 E bRec).1 (sampleAlphas1 E bRec).2
       let wo := reflect bRec.wi m
       let bRec2 := { bRec with wo := wo, sampledComponent := 0, sampledType := EGlossyReflection }
       let samplerOut := if hasReflection bRec ∧ hasTransmission bRec
          then (next1D sampler).2 else sampler
       if cosTheta bRec.wi * cosTheta wo ≤ 0 then (bRec2, samplerOut, 0)
       else
         (bRec2, samplerOut,
           E.m_specularReflectance bRec.its *
             |E.dist_eval m (E.dist_transformRoughness (E.m_alphaU bRec.its))
                 (E.dist_transformRoughness (E.m_alphaV bRec.its)) *
               E.dist_G bRec.wi wo m (E.dist_transformRoughness (E.m_alphaU bRec.its))
                 (E.dist_transformRoughness (E.m_alphaV bRec.its)) *
               dot bRec.wi m /
               (E.dist_pdf m (sampleAlphas1 E bRec).1 (sampleAlphas1 E bRec).2 *
                 cosTheta bRec.wi)|)) := by
  have endgame : ∀ sOut : List ℚ,
      (match (if cosTheta bRec.wi * cosTheta (reflect bRec.wi (E.dist_sample s
            (sampleAlphas1 E bRec).1 (sampleAlphas1 E bRec).2)) ≤ 0 then
          ({ bRec with wo := reflect bRec.wi (E.dist_sample s (sampleAlphas1 E bRec).1 (sampleAlphas1 E bRec).2), sampledComponent := 0, sampledType := EGlossyReflection }, (none : Option ℚ))
        else
          ({ bRec with wo := reflect bRec.wi (E.dist_sample s (sampleAlphas1 E bRec).1 (sampleAlphas1 E bRec).2), sampledComponent := 0, sampledType := EGlossyReflection },
            some (E.m_specularReflectance bRec.its))) with
      | (bRec2, none) => (bRec2, sOut, (0 : ℚ))
      | (bRec2, some result) =>
        (bRec2, sOut, result *
          |E.dist_eval (E.dist_sample s (sampleAlphas1 E bRec).1 (sampleAlphas1 E bRec).2)
              (E.dist_transformRoughness (E.m_alphaU bRec.its))
              (E.dist_transformRoughness (E.m_alphaV bRec.its)) *
            E.dist_G bRec.wi bRec2.wo (E.dist_sample s (sampleAlphas1 E bRec).1 (sampleAlphas1 E bRec).2)
              (E.dist_transformRoughness (E.m_alphaU bRec.its))
              (E.dist_transformRoughness (E.m_alphaV bRec.its)) *
            dot bRec.wi (E.dist_sample s (sampleAlphas1 E bRec).1 (sampleAlphas1 E bRec).2) /
            (E.dist_pdf (E.dist_sample s (sampleAlphas1 E bRec).1 (sampleAlphas1 E bRec).2)
                (sampleAlphas1 E bRec).1 (sampleAlphas1 E bRec).2 * cosTheta bRec.wi)|)) =
      (if cosTheta bRec.wi * cosTheta (reflect bRec.wi (E.dist_sample s
            (sampleAlphas1 E bRec).1 (sampleAlphas1 E bRec).2)) ≤ 0 then
        ({ bRec with wo := reflect bRec.wi (E.dist_sample s (sampleAlphas1 E bRec).1 (sampleAlphas1 E bRec).2), sampledComponent := 0, sampledType := EGlossyReflection }, sOut, (0 : ℚ))
      else
        ({ bRec with wo := reflect bRec.wi (E.dist_sample s (sampleAlphas1 E bRec).1 (sampleAlphas1 E bRec).2), sampledComponent := 0, sampledType := EGlossyReflection }, sOut,
          E.m_specularReflectance bRec.its *
            |E.dist_eval (E.dist_sample s (sampleAlphas1 E bRec).1 (sampleAlphas1 E bRec).2)
                (E.dist_transformRoughness (E.m_alphaU bRec.its))
                (E.dist_transformRoughness (E.m_alphaV bRec.its)) *
              E.dist_G bRec.wi (reflect bRec.wi (E.dist_sample s (sampleAlphas1 E bRec).1 (sampleAlphas1 E bRec).2))
                (E.dist_sample s (sampleAlphas1 E bRec).1 (sampleAlphas1 E bRec).2)
                (E.dist_transformRoughness (E.m_alphaU bRec.its))
                (E.dist_transformRoughness (E.m_alphaV bRec.its)) *
              dot bRec.wi (E.dist_sample s (sampleAlphas1 E bRec).1 (sampleAlphas1 E bRec).2) /
              (E.dist_pdf (E.dist_sample s (sampleAlphas1 E bRec).1 (sampleAlphas1 E bRec).2)
                  (sampleAlphas1 E bRec).1 (sampleAlphas1 E bRec).2 * cosTheta bRec.wi)|)) := by
    intro sOut
    by_cases hs : cosTheta bRec.wi * cosTheta (reflect bRec.wi (E.dist_sample s
        (sampleAlphas1 E bRec).1 (sampleAlphas1 E bRec).2)) ≤ 0
    · rw [if_pos hs, if_pos hs]
    · rw [if_neg hs, if_neg hs]
  by_cases hT : hasTransmission bRec
  · have hb : hasReflection bRec ∧ hasTransmission bRec := ⟨hR, hT⟩
    simp only [sample,
      if_neg (fun (h : ¬hasReflection bRec ∧ ¬hasTransmission bRec) => h.1 hR),
      if_pos hb, if_neg (hch hT), eq_self_iff_true, if_true]
    exact endgame (next1D sampler).2
  · have hnb : ¬ (hasReflection bRec ∧ hasTransmission bRec) := fun h => hT h.2
    simp only [sample,
      if_neg (fun (h : ¬hasReflection bRec ∧ ¬hasTransmission bRec) => h.1 hR),
      if_neg hnb, if_pos hR, eq_self_iff_true, if_true]
    exact endgame sampler

/-- Characterization of the first `sample` overload when the transmissive
branch is chosen. -/
lemma sample_transmission_eq (E : RoughDielectric) (bRec : BSDFQueryRecord)
    (sampler : List ℚ) (s : ℚ × ℚ) (hT : hasTransmission bRec)
    (hch : hasReflection bRec →
      E.fresnel (dot bRec.wi (E.dist_sample s (sampleAlphas1 E bRec).1
          (sampleAlphas1 E bRec).2)) E.m_extIOR E.m_intIOR <
        (next1D sampler).1) :
    sample E bRec sampler s =
      (let m := E.dist_sample s (sampleAlphas1 E bRec).1 (sampleAlphas1 E bRec).2
       let etaI := if cosTheta bRec.wi < 0 then E.m_intIOR else E.m_extIOR
       let etaT := if cosTheta bRec.wi < 0 then E.m_extIOR else E.m_intIOR
       let samplerOut := if hasReflection bRec ∧ hasTransmission bRec
          then (next1D sampler).2 else sampler
       match refract E bRec.wi m etaI etaT with
       | none => (bRec, samplerOut, 0)
       | some wo =>
         let bRec2 := { bRec with wo := wo, sampledComponent := 1, sampledType := EGlossyTransmission }
         if 0 ≤ cosTheta bRec.wi * cosTheta wo then (bRec2, samplerOut, 0)
         else
           (bRec2, samplerOut,
             E.m_specularTransmittance bRec.its *
               (if bRec.quantity = EQuantity.eRadiance then
                 (etaI * etaI) / (etaT * etaT) else 1) *
               |E.dist_eval m (E.dist_transformRoughness (E.m_alphaU bRec.its))
                   (E.dist_transformRoughness (E.m_alphaV bRec.its)) *
                 E.dist_G bRec.wi wo m (E.dist_transformRoughness (E.m_alphaU bRec.its))
                   (E.dist_transformRoughness (E.m_alphaV bRec.its)) *
                 dot bRec.wi m /
                 (E.dist_pdf m (sampleAlphas1 E bRec).1 (sampleAlphas1 E bRec).2 *
                   cosTheta bRec.wi)|)) := by
  have endgame : ∀ sOut : List ℚ,
      (match (match refract E bRec.wi (E.dist_sample s (sampleAlphas1 E bRec).1 (sampleAlphas1 E bRec).2)
            (if cosTheta bRec.wi < 0 then E.m_intIOR else E.m_extIOR)
            (if cosTheta bRec.wi < 0 then E.m_extIOR else E.m_intIOR) with
          | none => (bRec, (none : Option ℚ))
          | some wo =>
            if 0 ≤ cosTheta bRec.wi * cosTheta wo then
              ({ bRec with wo := wo, sampledComponent := 1, sampledType := EGlossyTransmission }, (none : Option ℚ))
            else
              ({ bRec with wo := wo, sampledComponent := 1, sampledType := EGlossyTransmission },
                some (E.m_specularTransmittance bRec.its *
                  (if bRec.quantity = EQuantity.eRadiance then
                    (if cosTheta bRec.wi < 0 then E.m_intIOR else E.m_extIOR) *
                        (if cosTheta bRec.wi < 0 then E.m_intIOR else E.m_extIOR) /
                      ((if cosTheta bRec.wi < 0 then E.m_extIOR else E.m_intIOR) *
                        (if cosTheta bRec.wi < 0 then E.m_extIOR else E.m_intIOR))
                  else 1)))) with
      | (bRec2, none) => (bRec2, sOut, (0 : ℚ))
      | (bRec2, some result) =>
        (bRec2, sOut, result *
          |E.dist_eval (E.dist_sample s (sampleAlphas1 E bRec).1 (sampleAlphas1 E bRec).2)
              (E.dist_transformRoughness (E.m_alphaU bRec.its))
              (E.dist_transformRoughness (E.m_alphaV bRec.its)) *
            E.dist_G bRec.wi bRec2.wo (E.dist_sample s (sampleAlphas1 E bRec).1 (sampleAlphas1 E bRec).2)
              (E.dist_transformRoughness (E.m_alphaU bRec.its))
              (E.dist_transformRoughness (E.m_alphaV bRec.its)) *
            dot bRec.wi (E.dist_sample s (sampleAlphas1 E bRec).1 (sampleAlphas1 E bRec).2) /
            (E.dist_pdf (E.dist_sample s (sampleAlphas1 E bRec).1 (sampleAlphas1 E bRec).2)
                (sampleAlphas1 E bRec).1 (sampleAlphas1 E bRec).2 * cosTheta bRec.wi)|)) =
      (match refract E bRec.wi (E.dist_sample s (sampleAlphas1 E bRec).1 (sampleAlphas1 E bRec).2)
          (if cosTheta bRec.wi < 0 then E.m_intIOR else E.m_extIOR)
          (if cosTheta bRec.wi < 0 then E.m_extIOR else E.m_intIOR) with
      | none => (bRec, sOut, (0 : ℚ))
      | some wo =>
        if 0 ≤ cosTheta bRec.wi * cosTheta wo then
          ({ bRec with wo := wo, sampledComponent := 1, sampledType := EGlossyTransmission }, sOut, (0 : ℚ))
        else
          ({ bRec with wo := wo, sampledComponent := 1, sampledType := EGlossyTransmission }, sOut,
            E.m_specularTransmittance bRec.its *
              (if bRec.quantity = EQuantity.eRadiance then
                (if cosTheta bRec.wi < 0 then E.m_intIOR else E.m_extIOR) *
                    (if cosTheta bRec.wi < 0 then E.m_intIOR else E.m_extIOR) /
                  ((if cosTheta bRec.wi < 0 then E.m_extIOR else E.m_intIOR) *
                    (if cosTheta bRec.wi < 0 then E.m_extIOR else E.m_intIOR))
              else 1) *
              |E.dist_eval (E.dist_sample s (sampleAlphas1 E bRec).1 (sampleAlphas1 E bRec).2)
                  (E.dist_transformRoughness (E.m_alphaU bRec.its))
                  (E.dist_transformRoughness (E.m_alphaV bRec.its)) *
                E.dist_G bRec.wi wo (E.dist_sample s (sampleAlphas1 E bRec).1 (sampleAlphas1 E bRec).2)
                  (E.dist_transformRoughness (E.m_alphaU bRec.its))
                  (E.dist_transformRoughness (E.m_alphaV bRec.its)) *
                dot bRec.wi (E.dist_sample s (sampleAlphas1 E bRec).1 (sampleAlphas1 E bRec).2) /
                (E.dist_pdf (E.dist_sample s (sampleAlphas1 E bRec).1 (sampleAlphas1 E bRec).2)
                    (sampleAlphas1 E bRec).1 (sampleAlphas1 E bRec).2 * cosTheta bRec.wi)|)) := by
    intro sOut
    cases href : refract E bRec.wi (E.dist_sample s (sampleAlphas1 E bRec).1 (sampleAlphas1 E bRec).2)
        (if cosTheta bRec.wi < 0 then E.m_intIOR else E.m_extIOR)
        (if cosTheta bRec.wi < 0 then E.m_extIOR else E.m_intIOR) with
    | none => rfl
    | some wo =>
      dsimp only []
      by_cases hs : 0 ≤ cosTheta bRec.wi * cosTheta wo
      · rw [if_pos hs, if_pos hs]
      · rw [if_neg hs, if_neg hs]
  by_cases hR : hasReflection bRec
  · have hb : hasReflection bRec ∧ hasTransmission bRec := ⟨hR, hT⟩
    simp only [sample,
      if_neg (fun (h : ¬hasReflection bRec ∧ ¬hasTransmission bRec) => h.2 hT),
      if_pos hb, if_pos (hch hR),
      if_neg (fun (h : (false : Bool) = true) => Bool.noConfusion h)]
    exact endgame (next1D sampler).2
  · have hnb : ¬ (hasReflection bRec ∧ hasTransmission bRec) := fun h => hR h.1
    simp only [sample,
      if_neg (fun (h : ¬hasReflection bRec ∧ ¬hasTransmission bRec) => h.2 hT),
      if_neg hnb, if_neg hR,
      if_neg (fun (h : (false : Bool) = true) => Bool.noConfusion h)]
    exact endgame sampler

/-- Characterization of the second `sample` overload when the reflective
branch is chosen. -/
lemma samplePdf_reflection_eq (E : RoughDielectric) (bRec : BSDFQueryRecord)
    (sampler : List ℚ) (s : ℚ × ℚ) (hR : hasReflection bRec)
    (hch : hasTransmission bRec →
      ¬ (E.fresnel (dot bRec.wi (E.dist_sample s (sampleAlphas2 E bRec).1
          (sampleAlphas2 E bRec).2)) E.m_extIOR E.m_intIOR <
        (next1D sampler).1)) :
    samplePdf E bRec sampler s =
      (let m := E.dist_sample s (sampleAlphas2 E bRec).1 (sampleAlphas2 E bRec).2
       let wo := reflect bRec.wi m
       let bRec2 := { bRec with wo := wo, sampledComponent := 0, sampledType := EGlossyReflection }
       let samplerOut := if hasReflection bRec ∧ hasTransmission bRec
          then (next1D sampler).2 else sampler
       if cosTheta bRec.wi * cosTheta wo ≤ 0 then (bRec2, samplerOut, (none : Option ℚ), (0 : ℚ))
       else if pdf E bRec2 EMeasure.eSolidAngle = 0 then (bRec2, samplerOut, some 0, 0)
       else (bRec2, samplerOut, some (pdf E bRec2 EMeasure.eSolidAngle),
         eval E bRec2 EMeasure.eSolidAngle)) := by
  have endgame : ∀ sOut : List ℚ,
      (match (if cosTheta bRec.wi * cosTheta (reflect bRec.wi (E.dist_sample s
            (sampleAlphas2 E bRec).1 (sampleAlphas2 E bRec).2)) ≤ 0 then
          ({ bRec with wo := reflect bRec.wi (E.dist_sample s (sampleAlphas2 E bRec).1 (sampleAlphas2 E bRec).2), sampledComponent := 0, sampledType := EGlossyReflection }, false)
        else
          ({ bRec with wo := reflect bRec.wi (E.dist_sample s (sampleAlphas2 E bRec).1 (sampleAlphas2 E bRec).2), sampledComponent := 0, sampledType := EGlossyReflection }, true)) with
      | (bRec2, false) => (bRec2, sOut, (none : Option ℚ), (0 : ℚ))
      | (bRec2, true) =>
        if pdf E bRec2 EMeasure.eSolidAngle = 0 then (bRec2, sOut, some 0, 0)
        else (bRec2, sOut, some (pdf E bRec2 EMeasure.eSolidAngle),
          eval E bRec2 EMeasure.eSolidAngle)) =
      (if cosTheta bRec.wi * cosTheta (reflect bRec.wi (E.dist_sample s
            (sampleAlphas2 E bRec).1 (sampleAlphas2 E bRec).2)) ≤ 0 then
        ({ bRec with wo := reflect bRec.wi (E.dist_sample s (sampleAlphas2 E bRec).1 (sampleAlphas2 E bRec).2), sampledComponent := 0, sampledType := EGlossyReflection }, sOut, (none : Option ℚ), (0 : ℚ))
      else if pdf E { bRec with wo := reflect bRec.wi (E.dist_sample s (sampleAlphas2 E bRec).1 (sampleAlphas2 E bRec).2), sampledComponent := 0, sampledType := EGlossyReflection } EMeasure.eSolidAngle = 0 then
        ({ bRec with wo := reflect bRec.wi (E.dist_sample s (sampleAlphas2 E bRec).1 (sampleAlphas2 E bRec).2), sampledComponent := 0, sampledType := EGlossyReflection }, sOut, some 0, 0)
      else
        ({ bRec with wo := reflect bRec.wi (E.dist_sample s (sampleAlphas2 E bRec).1 (sampleAlphas2 E bRec).2), sampledComponent := 0, sampledType := EGlossyReflection }, sOut,
          some (pdf E { bRec with wo := reflect bRec.wi (E.dist_sample s (sampleAlphas2 E bRec).1 (sampleAlphas2 E bRec).2), sampledComponent := 0, sampledType := EGlossyReflection } EMeasure.eSolidAngle),
          eval E { bRec with wo := reflect bRec.wi (E.dist_sample s (sampleAlphas2 E bRec).1 (sampleAlphas2 E bRec).2), sampledComponent := 0, sampledType := EGlossyReflection } EMeasure.eSolidAngle)) := by
    intro sOut
    by_cases hs : cosTheta bRec.wi * cosTheta (reflect bRec.wi (E.dist_sample s
        (sampleAlphas2 E bRec).1 (sampleAlphas2 E bRec).2)) ≤ 0
    · rw [if_pos hs, if_pos hs]
    · rw [if_neg hs, if_neg hs]
  by_cases hT : hasTransmission bRec
  · have hb : hasReflection bRec ∧ hasTransmission bRec := ⟨hR, hT⟩
    simp only [samplePdf,
      if_neg (fun (h : ¬hasReflection bRec ∧ ¬hasTransmission bRec) => h.1 hR),
      if_pos hb, if_neg (hch hT), eq_self_iff_true, if_true]
    exact endgame (next1D sampler).2
  · have hnb : ¬ (hasReflection bRec ∧ hasTransmission bRec) := fun h => hT h.2
    simp only [samplePdf,
      if_neg (fun (h : ¬hasReflection bRec ∧ ¬hasTransmission bRec) => h.1 hR),
      if_neg hnb, if_pos hR, eq_self_iff_true, if_true]
    exact endgame sampler

/-- Characterization of the second `sample` overload when the
transmissive branch is chosen. -/
lemma samplePdf_transmission_eq (E : RoughDielectric) (bRec : BSDFQueryRecord)
    (sampler : List ℚ) (s : ℚ × ℚ) (hT : hasTransmission bRec)
    (hch : hasReflection bRec →
      E.fresnel (dot bRec.wi (E.dist_sample s (sampleAlphas2 E bRec).1
          (sampleAlphas2 E bRec).2)) E.m_extIOR E.m_intIOR <
        (next1D sampler).1) :
    samplePdf E bRec sampler s =
      (let m := E.dist_sample s (sampleAlphas2 E bRec).1 (sampleAlphas2 E bRec).2
       let etaI := if cosTheta bRec.wi < 0 then E.m_intIOR else E.m_extIOR
       let etaT := if cosTheta bRec.wi < 0 then E.m_extIOR else E.m_intIOR
       let samplerOut := if hasReflection bRec ∧ hasTransmission bRec
          then (next1D sampler).2 else sampler
       match refract E bRec.wi m etaI etaT with
       | none => (bRec, samplerOut, (none : Option ℚ), (0 : ℚ))
       | some wo =>
         let bRec2 := { bRec with wo := wo, sampledComponent := 1, sampledType := EGlossyTransmission }
         if 0 ≤ cosTheta bRec.wi * cosTheta wo then (bRec2, samplerOut, (none : Option ℚ), (0 : ℚ))
         else if pdf E bRec2 EMeasure.eSolidAngle = 0 then (bRec2, samplerOut, some 0, 0)
         else (bRec2, samplerOut, some (pdf E bRec2 EMeasure.eSolidAngle),
           eval E bRec2 EMeasure.eSolidAngle)) := by
  have endgame : ∀ sOut : List ℚ,
      (match (match refract E bRec.wi (E.dist_sample s (sampleAlphas2 E bRec).1 (sampleAlphas2 E bRec).2)
            (if cosTheta bRec.wi < 0 then E.m_intIOR else E.m_extIOR)
            (if cosTheta bRec.wi < 0 then E.m_extIOR else E.m_intIOR) with
          | none => (bRec, false)
          | some wo =>
            if 0 ≤ cosTheta bRec.wi * cosTheta wo then
              ({ bRec with wo := wo, sampledComponent := 1, sampledType := EGlossyTransmission }, false)
            else
              ({ bRec with wo := wo, sampledComponent := 1, sampledType := EGlossyTransmission }, true)) with
      | (bRec2, false) => (bRec2, sOut, (none : Option ℚ), (0 : ℚ))
      | (bRec2, true) =>
        if pdf E bRec2 EMeasure.eSolidAngle = 0 then (bRec2, sOut, some 0, 0)
        else (bRec2, sOut, some (pdf E bRec2 EMeasure.eSolidAngle),
          eval E bRec2 EMeasure.eSolidAngle)) =
      (match refract E bRec.wi (E.dist_sample s (sampleAlphas2 E bRec).1 (sampleAlphas2 E bRec).2)
          (if cosTheta bRec.wi < 0 then E.m_intIOR else E.m_extIOR)
          (if cosTheta bRec.wi < 0 then E.m_extIOR else E.m_intIOR) with
      | none => (bRec, sOut, (none : Option ℚ), (0 : ℚ))
      | some wo =>
        if 0 ≤ cosTheta bRec.wi * cosTheta wo then
          ({ bRec with wo := wo, sampledComponent := 1, sampledType := EGlossyTransmission }, sOut, (none : Option ℚ), (0 : ℚ))
        else if pdf E { bRec with wo := wo, sampledComponent := 1, sampledType := EGlossyTransmission } EMeasure.eSolidAngle = 0 then
          ({ bRec with wo := wo, sampledComponent := 1, sampledType := EGlossyTransmission }, sOut, some 0, 0)
        else
          ({ bRec with wo := wo, sampledComponent := 1, sampledType := EGlossyTransmission }, sOut,
            some (pdf E { bRec with wo := wo, sampledComponent := 1, sampledType := EGlossyTransmission } EMeasure.eSolidAngle),
            eval E { bRec with wo := wo, sampledComponent := 1, sampledType := EGlossyTransmission } EMeasure.eSolidAngle)) := by
    intro sOut
    cases href : refract E bRec.wi (E.dist_sample s (sampleAlphas2 E bRec).1 (sampleAlphas2 E bRec).2)
        (if cosTheta bRec.wi < 0 then E.m_intIOR else E.m_extIOR)
        (if cosTheta bRec.wi < 0 then E.m_extIOR else E.m_intIOR) with
    | none => rfl
    | some wo =>
      dsimp only []
      by_cases hs : 0 ≤ cosTheta bRec.wi * cosTheta wo
      · rw [if_pos hs, if_pos hs]
      · rw [if_neg hs, if_neg hs]
  by_cases hR : hasReflection bRec
  · have hb : hasReflection bRec ∧ hasTransmission bRec := ⟨hR, hT⟩
    simp only [samplePdf,
      if_neg (fun (h : ¬hasReflection bRec ∧ ¬hasTransmission bRec) => h.2 hT),
      if_pos hb, if_pos (hch hR),
      if_neg (fun (h : (false : Bool) = true) => Bool.noConfusion h)]
    exact endgame (next1D sampler).2
  · have hnb : ¬ (hasReflection bRec ∧ hasTransmission bRec) := fun h => hR h.1
    simp only [samplePdf,
      if_neg (fun (h : ¬hasReflection bRec ∧ ¬hasTransmission bRec) => h.2 hT),
      if_neg hnb, if_neg hR,
      if_neg (fun (h : (false : Bool) = true) => Bool.noConfusion h)]
    exact endgame sampler

/-- A transmission-only query arriving from the interior side at an
angle beyond the critical angle of the 2:1 interface. -/
def exRecTIR : BSDFQueryRecord :=
  { exRec with wi := ⟨3/5, 0, -4/5⟩, typeMask := ⟨false, true⟩ }

/-- Claim C6: in the transmissive branch of either sampling overload,
total internal reflection at the sampled micro-normal — that is,
`1 + (etaI/etaT)^2 * (dot(wi,m)^2 - 1) < 0` with the side-appropriate
index ordering — makes the refraction helper report failure and the
sampling call return a zero result with the query record unchanged (no
transmitted direction is reported); a refracted direction on the same
side of the interface as the incoming direction likewise yields a zero
result. -/
theorem sample_total_internal_reflection (E : RoughDielectric)
    (bRec : BSDFQueryRecord) (sampler : List ℚ) (s : ℚ × ℚ)
    (hT : hasTransmission bRec)
    (hch : hasReflection bRec →
      E.fresnel (dot bRec.wi (E.dist_sample s (sampleAlphas1 E bRec).1
          (sampleAlphas1 E bRec).2)) E.m_extIOR E.m_intIOR <
        (next1D sampler).1) :
    (1 + (if cosTheta bRec.wi < 0 then E.m_intIOR else E.m_extIOR) /
          (if cosTheta bRec.wi < 0 then E.m_extIOR else E.m_intIOR) *
        ((if cosTheta bRec.wi < 0 then E.m_intIOR else E.m_extIOR) /
          (if cosTheta bRec.wi < 0 then E.m_extIOR else E.m_intIOR)) *
        (dot bRec.wi (E.dist_sample s (sampleAlphas1 E bRec).1 (sampleAlphas1 E bRec).2) *
            dot bRec.wi (E.dist_sample s (sampleAlphas1 E bRec).1 (sampleAlphas1 E bRec).2) - 1) < 0 →
      refract E bRec.wi (E.dist_sample s (sampleAlphas1 E bRec).1 (sampleAlphas1 E bRec).2)
          (if cosTheta bRec.wi < 0 then E.m_intIOR else E.m_extIOR)
          (if cosTheta bRec.wi < 0 then E.m_extIOR else E.m_intIOR) = none ∧
      (sample E bRec sampler s).1 = bRec ∧
      (sample E bRec sampler s).2.2 = 0 ∧
      (samplePdf E bRec sampler s).1 = bRec ∧
      (samplePdf E bRec sampler s).2.2 = (none, 0)) ∧
    (∀ wo : Vec3,
      refract E bRec.wi (E.dist_sample s (sampleAlphas1 E bRec).1 (sampleAlphas1 E bRec).2)
          (if cosTheta bRec.wi < 0 then E.m_intIOR else E.m_extIOR)
          (if cosTheta bRec.wi < 0 then E.m_extIOR else E.m_intIOR) = some wo →
      0 ≤ cosTheta bRec.wi * cosTheta wo →
      (sample E bRec sampler s).2.2 = 0 ∧
      (samplePdf E bRec sampler s).2.2.2 = 0) := by
  constructor
  · intro hTIR
    have hre : refract E bRec.wi (E.dist_sample s (sampleAlphas1 E bRec).1 (sampleAlphas1 E bRec).2)
        (if cosTheta bRec.wi < 0 then E.m_intIOR else E.m_extIOR)
        (if cosTheta bRec.wi < 0 then E.m_extIOR else E.m_intIOR) = none := by
      simp only [refract]
      rw [if_pos hTIR]
    have hre2 : refract E bRec.wi (E.dist_sample s (sampleAlphas2 E bRec).1 (sampleAlphas2 E bRec).2)
        (if cosTheta bRec.wi < 0 then E.m_intIOR else E.m_extIOR)
        (if cosTheta bRec.wi < 0 then E.m_extIOR else E.m_intIOR) = none := hre
    refine ⟨hre, ?_, ?_, ?_, ?_⟩
    · rw [sample_transmission_eq E bRec sampler s hT hch]
      simp only [hre]
    · rw [sample_transmission_eq E bRec sampler s hT hch]
      simp only [hre]
    · rw [samplePdf_transmission_eq E bRec sampler s hT hch]
      simp only [hre2]
    · rw [samplePdf_transmission_eq E bRec sampler s hT hch]
      simp only [hre2]
  · intro wo hre hside
    have hre2 : refract E bRec.wi (E.dist_sample s (sampleAlphas2 E bRec).1 (sampleAlphas2 E bRec).2)
        (if cosTheta bRec.wi < 0 then E.m_intIOR else E.m_extIOR)
        (if cosTheta bRec.wi < 0 then E.m_extIOR else E.m_intIOR) = some wo := hre
    constructor
    · rw [sample_transmission_eq E bRec sampler s hT hch]
      simp only [hre, if_pos hside]
    · rw [samplePdf_transmission_eq E bRec sampler s hT hch]
      simp only [hre2, if_pos hside]

/-- Claim C6 witness: at the concrete beyond-critical-angle query the
refraction helper fails and both overloads return a zero result with the
record unchanged. -/
theorem sample_total_internal_reflection_witness :
    refract exE exRecTIR.wi
        (exE.dist_sample (0, 0) (sampleAlphas1 exE exRecTIR).1 (sampleAlphas1 exE exRecTIR).2)
        (if cosTheta exRecTIR.wi < 0 then exE.m_intIOR else exE.m_extIOR)
        (if cosTheta exRecTIR.wi < 0 then exE.m_extIOR else exE.m_intIOR) = none ∧
    (sample exE exRecTIR [] (0, 0)).1 = exRecTIR ∧
    (sample exE exRecTIR [] (0, 0)).2.2 = 0 ∧
    (samplePdf exE exRecTIR [] (0, 0)).1 = exRecTIR ∧
    (samplePdf exE exRecTIR [] (0, 0)).2.2 = (none, 0) :=
  (sample_total_internal_reflection exE exRecTIR [] (0, 0) ⟨Or.inl rfl, rfl⟩
      (fun h => absurd h.2 (by norm_num [exRecTIR, exRec]))).1
    (by norm_num [exE, exRecTIR, exRec, dot, cosTheta])

/-- A material whose distribution samples a tangential micro-normal, so
that the reflected direction fails the side check. -/
def exE9 : RoughDielectric := { exE with dist_sample := fun _ _ _ => ⟨1, 0, 0⟩ }

/-- Claim C9: when either sampling overload rejects because the computed
direction fails the side check, the query record has already been
mutated: `wo` holds the reflected or refracted direction and
`sampledComponent`/`sampledType` identify the chosen component, even
though the returned result is zero.  (Only the total-internal-reflection
and empty-mask rejections leave the record untouched.) -/
theorem sample_zero_result_mutation (E : RoughDielectric)
    (bRec : BSDFQueryRecord) (sampler : List ℚ) (s : ℚ × ℚ) :
    (hasReflection bRec →
      (hasTransmission bRec →
        ¬ (E.fresnel (dot bRec.wi (E.dist_sample s (sampleAlphas1 E bRec).1
            (sampleAlphas1 E bRec).2)) E.m_extIOR E.m_intIOR <
          (next1D sampler).1)) →
      cosTheta bRec.wi * cosTheta (reflect bRec.wi
        (E.dist_sample s (sampleAlphas1 E bRec).1 (sampleAlphas1 E bRec).2)) ≤ 0 →
      sample E bRec sampler s =
        ({ bRec with wo := reflect bRec.wi (E.dist_sample s (sampleAlphas1 E bRec).1 (sampleAlphas1 E bRec).2), sampledComponent := 0, sampledType := EGlossyReflection },
          (if hasReflection bRec ∧ hasTransmission bRec then (next1D sampler).2 else sampler), 0) ∧
      samplePdf E bRec sampler s =
        ({ bRec with wo := reflect bRec.wi (E.dist_sample s (sampleAlphas1 E bRec).1 (sampleAlphas1 E bRec).2), sampledComponent := 0, sampledType := EGlossyReflection },
          (if hasReflection bRec ∧ hasTransmission bRec then (next1D sampler).2 else sampler), none, 0)) ∧
    (hasTransmission bRec →
      (hasReflection bRec →
        E.fresnel (dot bRec.wi (E.dist_sample s (sampleAlphas1 E bRec).1
            (sampleAlphas1 E bRec).2)) E.m_extIOR E.m_intIOR <
          (next1D sampler).1) →
      ∀ wo : Vec3,
      refract E bRec.wi (E.dist_sample s (sampleAlphas1 E bRec).1 (sampleAlphas1 E bRec).2)
          (if cosTheta bRec.wi < 0 then E.m_intIOR else E.m_extIOR)
          (if cosTheta bRec.wi < 0 then E.m_extIOR else E.m_intIOR) = some wo →
      0 ≤ cosTheta bRec.wi * cosTheta wo →
      sample E bRec sampler s =
        ({ bRec with wo := wo, sampledComponent := 1, sampledType := EGlossyTransmission },
          (if hasReflection bRec ∧ hasTransmission bRec then (next1D sampler).2 else sampler), 0) ∧
      samplePdf E bRec sampler s =
        ({ bRec with wo := wo, sampledComponent := 1, sampledType := EGlossyTransmission },
          (if hasReflection bRec ∧ hasTransmission bRec then (next1D sampler).2 else sampler), none, 0)) := by
  constructor
  · intro hR hch hside
    have hch2 : hasTransmission bRec →
        ¬ (E.fresnel (dot bRec.wi (E.dist_sample s (sampleAlphas2 E bRec).1
            (sampleAlphas2 E bRec).2)) E.m_extIOR E.m_intIOR <
          (next1D sampler).1) := hch
    have hside2 : cosTheta bRec.wi * cosTheta (reflect bRec.wi
        (E.dist_sample s (sampleAlphas2 E bRec).1 (sampleAlphas2 E bRec).2)) ≤ 0 := hside
    constructor
    · rw [sample_reflection_eq E bRec sampler s hR hch]
      simp only [if_pos hside]
    · rw [samplePdf_reflection_eq E bRec sampler s hR hch2]
      simp only [if_pos hside2]
      rw [sampleAlphas_eq E bRec]
  · intro hT hch wo hre hside
    have hch2 : hasReflection bRec →
        E.fresnel (dot bRec.wi (E.dist_sample s (sampleAlphas2 E bRec).1
            (sampleAlphas2 E bRec).2)) E.m_extIOR E.m_intIOR <
          (next1D sampler).1 := hch
    have hre2 : refract E bRec.wi (E.dist_sample s (sampleAlphas2 E bRec).1 (sampleAlphas2 E bRec).2)
        (if cosTheta bRec.wi < 0 then E.m_intIOR else E.m_extIOR)
        (if cosTheta bRec.wi < 0 then E.m_extIOR else E.m_intIOR) = some wo := hre
    constructor
    · rw [sample_transmission_eq E bRec sampler s hT hch]
      simp only [hre, if_pos hside]
    · rw [samplePdf_transmission_eq E bRec sampler s hT hch2]
      simp only [hre2, if_pos hside]

/-- Claim C9 witness: with the tangential micro-normal the reflective
side check fails, the weight is zero, and the record's outgoing
direction and sampled component have nevertheless been overwritten. -/
theorem sample_zero_result_mutation_witness :
    (sample exE9 exRecReflOnly [] (0, 0)).2.2 = 0 ∧
    (sample exE9 exRecReflOnly [] (0, 0)).1.sampledComponent = 0 ∧
    (sample exE9 exRecReflOnly [] (0, 0)).1.sampledType = EGlossyReflection ∧
    (sample exE9 exRecReflOnly [] (0, 0)).1.wo ≠ exRecReflOnly.wo := by
  obtain ⟨h1, h2⟩ := (sample_zero_result_mutation exE9 exRecReflOnly [] (0, 0)).1
    ⟨Or.inl rfl, rfl⟩
    (fun h => absurd h.2 (by norm_num [exRecReflOnly, exRec]))
    (by norm_num [exE9, exE, exRecReflOnly, exRec, reflect, dot, smul, vsub,
      cosTheta])
  refine ⟨by rw [h1], by rw [h1], by rw [h1], ?_⟩
  rw [h1]
  norm_num [exE9, exE, exRecReflOnly, exRec, reflect, dot, smul, vsub, Vec3.mk.injEq]

/-- Claim C1 counterexample: with a component mask enabling only
reflection, the first sampling overload returns the weight
`|D*G*cos(wi,m)/(D_pdf*cos wi)|` with no Fresnel factor, while `eval`
keeps the factor `F` and `pdf` omits it, so
`eval/pdf = F * weight ≠ weight`.  At the concrete query below the
returned weight is `1` but `eval/pdf = 1/2`. -/
theorem sample_ratio_single_component_counterexample :
    (sample exE exRecReflOnly [] (0, 0)).2.2 ≠ 0 ∧
    eval exE (sample exE exRecReflOnly [] (0, 0)).1 EMeasure.eSolidAngle /
        pdf exE (sample exE exRecReflOnly [] (0, 0)).1 EMeasure.eSolidAngle ≠
      (sample exE exRecReflOnly [] (0, 0)).2.2 := by
  have hch : hasTransmission exRecReflOnly →
      ¬ (exE.fresnel (dot exRecReflOnly.wi (exE.dist_sample (0, 0)
          (sampleAlphas1 exE exRecReflOnly).1 (sampleAlphas1 exE exRecReflOnly).2))
        exE.m_extIOR exE.m_intIOR < (next1D []).1) :=
    fun h => absurd h.2 (by norm_num [exRecReflOnly, exRec])
  have h1 := sample_reflection_eq exE exRecReflOnly [] (0, 0) ⟨Or.inl rfl, rfl⟩ hch
  rw [h1]
  constructor
  · norm_num [exE, exSqrt, exRecReflOnly, exRec, dot, smul, vsub, vadd,
      cosTheta, reflect, sampleAlphas1, hasReflection, hasTransmission]
  · have habs : |((1 : ℚ) / 4)| = 1 / 4 := abs_of_pos (by norm_num)
    norm_num [habs, eval, pdf, pdfTail, reflectionHalfVector, normalize, signum,
      exE, exSqrt, exRecReflOnly, exRec, dot, smul, vsub, vadd, cosTheta,
      reflect, sampleAlphas1, pdfSampleAlphas, hasReflection, hasTransmission]

/-- The sum entering the reflection half-vector is the scaled normal. -/
lemma reflect_vadd (wi m : Vec3) :
    vadd (reflect wi m) wi = smul (2 * dot wi m) m := by
  simp only [reflect, vadd, vsub, smul, dot, Vec3.mk.injEq]
  refine ⟨by ring, by ring, by ring⟩

/-- Squared length of a scaled vector. -/
lemma dot_smul_self (a : ℚ) (v : Vec3) :
    dot (smul a v) (smul a v) = a * a * dot v v := by
  simp only [dot, smul]
  ring

/-- Composition of scalings. -/
lemma smul_smul_eq (a b : ℚ) (v : Vec3) :
    smul a (smul b v) = smul (a * b) v := by
  simp only [smul, Vec3.mk.injEq]
  refine ⟨by ring, by ring, by ring⟩

/-- Scaling by one. -/
lemma one_smul_eq (v : Vec3) : smul 1 v = v := by
  cases v
  simp [smul]

/-- The reflected direction makes the same angle with a unit micro-normal
as the incoming direction. -/
lemma dot_reflect_self (wi m : Vec3) (hm : dot m m = 1) :
    dot (reflect wi m) m = dot wi m := by
  simp only [reflect, dot, smul, vsub] at hm ⊢
  linear_combination (2 * (wi.x * m.x + wi.y * m.y + wi.z * m.z)) * hm

/-- `signum` at a positive argument. -/
lemma signum_of_pos {x : ℚ} (h : 0 < x) : signum x = 1 :=
  if_neg (not_lt.mpr h.le)

/-- `signum` squares to one. -/
lemma signum_mul_self (x : ℚ) : signum x * signum x = 1 := by
  unfold signum
  split <;> norm_num

/-- `signum` never vanishes. -/
lemma signum_ne_zero (x : ℚ) : signum x ≠ 0 := by
  unfold signum
  split <;> norm_num

/-- A nonzero rational divided by its absolute value is its sign. -/
lemma div_abs_eq_signum (k : ℚ) (hk : k ≠ 0) : k / |k| = signum k := by
  unfold signum
  rcases lt_or_gt_of_ne hk with h | h
  · rw [if_pos h, abs_of_neg h]
    field_simp
  · rw [if_neg (not_lt.mpr h.le), abs_of_pos h]
    exact div_self hk

/-- The index-weighted sum entering the transmission half-vector, when
the outgoing direction is the refracted one, is the scaled micro-normal. -/
lemma trans_halfvec_sum (wi m : Vec3) (etaI etaT t : ℚ) (hT : etaT ≠ 0) :
    vadd (smul etaI wi)
      (smul etaT (vsub (smul (etaI / etaT * dot wi m - signum wi.z * t) m)
        (smul (etaI / etaT) wi))) =
    smul (etaI * dot wi m - etaT * (signum wi.z * t)) m := by
  simp only [vadd, smul, vsub, dot, Vec3.mk.injEq]
  refine ⟨?_, ?_, ?_⟩ <;> field_simp <;> ring

/-- Cosine between the refracted direction and a unit micro-normal. -/
lemma dot_refracted_m (wi m : Vec3) (etaI etaT t : ℚ) (hm : dot m m = 1) :
    dot (vsub (smul (etaI / etaT * dot wi m - signum wi.z * t) m)
        (smul (etaI / etaT) wi)) m =
      - (signum wi.z * t) := by
  simp only [dot, smul, vsub] at hm ⊢
  linear_combination (etaI / etaT * (wi.x * m.x + wi.y * m.y + wi.z * m.z)
    - signum wi.z * t) * hm

/-- Scalar identity behind the reflective eval/pdf/weight consistency. -/
lemma refl_ratio_key (specR F D G c cw P : ℚ) (hF : 0 < F) (hc : 0 < c)
    (hD : 0 < D) (hG : 0 < G) (hP : 0 < P) (hcw : cw ≠ 0) :
    specR * (F * D * G / (4 * |cw|)) / |P * F * (1 / (4 * c))| =
      specR * |D * G * c / (P * cw)| := by
  have h1 : |P * F * (1 / (4 * c))| = P * F * (1 / (4 * c)) :=
    abs_of_pos (by positivity)
  have h2 : |D * G * c / (P * cw)| = D * G * c / (P * |cw|) := by
    rw [abs_div, abs_of_pos (show (0 : ℚ) < D * G * c by positivity),
      abs_mul, abs_of_pos hP]
  rw [h1, h2]
  have h3 : |cw| ≠ 0 := abs_ne_zero.mpr hcw
  field_simp
  ring

/-- Scalar identity behind the transmissive eval/pdf/weight consistency. -/
lemma trans_ratio_key (specT rad F D G c cw P st k b : ℚ)
    (hF1 : F < 1) (hD : D ≠ 0) (hG : G ≠ 0) (hc : c ≠ 0) (hcw : cw ≠ 0)
    (hP : P ≠ 0) (hst : st ≠ 0) (hk : k ≠ 0) (hb : b ≠ 0) :
    specT * (rad * |(1 - F) * D * G * b ^ 2 * c * st / (cw * k ^ 2)|) /
      |P * (1 - F) * (b ^ 2 * st / k ^ 2)| =
    specT * rad * |D * G * c / (P * cw)| := by
  have h1F : (1 : ℚ) - F ≠ 0 := sub_ne_zero.mpr (by linarith)
  have hAB : (1 - F) * D * G * b ^ 2 * c * st / (cw * k ^ 2) /
      (P * (1 - F) * (b ^ 2 * st / k ^ 2)) = D * G * c / (P * cw) := by
    field_simp
    ring
  rw [mul_div_assoc, mul_div_assoc, ← abs_div, hAB, ← mul_assoc]

set_option maxHeartbeats 3200000 in
/-- Claim C1 (amended): for a query produced by the first sampling
overload with a component mask enabling BOTH the reflective and the
transmissive component and a nonzero returned weight,
`eval/pdf = weight` holds under exact arithmetic, provided the external
collaborators are in general position: the sampled micro-normal `m` is a
unit vector, the square root is exact at the lengths that occur, the
reconstructed half-vector orientation matches `m` (positive `dot(wi,m)`
and reflected cosine for reflection; the stated sign condition for
transmission), the Fresnel value of a chosen reflection is positive, and
the distribution's density, shadowing term and sampling density are
nonnegative.  With a single-component mask the ratio is `F * weight`
(respectively `(1-F) * weight`), as the counterexample shows. -/
theorem sample_eval_pdf_weight_consistency (E : RoughDielectric)
    (bRec : BSDFQueryRecord) (sampler : List ℚ) (s : ℚ × ℚ)
    (m : Vec3) (F ξ etaI etaT t k : ℚ)
    (hR : hasReflection bRec) (hT : hasTransmission bRec)
    (hm : m = E.dist_sample s (sampleAlphas1 E bRec).1 (sampleAlphas1 E bRec).2)
    (hF : F = E.fresnel (dot bRec.wi m) E.m_extIOR E.m_intIOR)
    (hxi : ξ = (next1D sampler).1)
    (hetaI : etaI = if cosTheta bRec.wi < 0 then E.m_intIOR else E.m_extIOR)
    (hetaT : etaT = if cosTheta bRec.wi < 0 then E.m_extIOR else E.m_intIOR)
    (ht : t = E.sqrt (1 + etaI / etaT * (etaI / etaT) *
      (dot bRec.wi m * dot bRec.wi m - 1)))
    (hk : k = etaI * dot bRec.wi m - etaT * (signum bRec.wi.z * t))
    (hxi1 : ξ < 1)
    (hunit : dot m m = 1)
    (hi0 : E.m_intIOR ≠ 0) (he0 : E.m_extIOR ≠ 0)
    (hrefl : ¬ F < ξ →
      0 < dot bRec.wi m ∧ 0 < cosTheta (reflect bRec.wi m) ∧ 0 < F ∧
      E.sqrt (dot (vadd (reflect bRec.wi m) bRec.wi)
          (vadd (reflect bRec.wi m) bRec.wi)) = 2 * dot bRec.wi m ∧
      0 ≤ E.dist_eval m (E.dist_transformRoughness (E.m_alphaU bRec.its))
          (E.dist_transformRoughness (E.m_alphaV bRec.its)) ∧
      0 ≤ E.dist_G bRec.wi (reflect bRec.wi m) m
          (E.dist_transformRoughness (E.m_alphaU bRec.its))
          (E.dist_transformRoughness (E.m_alphaV bRec.its)) ∧
      0 ≤ E.dist_pdf m (sampleAlphas1 E bRec).1 (sampleAlphas1 E bRec).2)
    (htrans : F < ξ →
      0 < t ∧ k ≠ 0 ∧
      (if E.m_intIOR < E.m_extIOR then (1 : ℚ) else -1) * signum k = 1 ∧
      E.sqrt (k * k) = |k|) :
    (sample E bRec sampler s).2.2 ≠ 0 →
    eval E (sample E bRec sampler s).1 EMeasure.eSolidAngle /
        pdf E (sample E bRec sampler s).1 EMeasure.eSolidAngle =
      (sample E bRec sampler s).2.2 := by
  intro hw
  by_cases hbr : F < ξ
  · -- transmission chosen
    obtain ⟨ht0, hk0, hsigma, hsqrtk⟩ := htrans hbr
    have hch : hasReflection bRec →
        E.fresnel (dot bRec.wi (E.dist_sample s (sampleAlphas1 E bRec).1
          (sampleAlphas1 E bRec).2)) E.m_extIOR E.m_intIOR <
          (next1D sampler).1 := by
      intro _
      rw [← hm, ← hF, ← hxi]
      exact hbr
    rw [sample_transmission_eq E bRec sampler s hT hch] at hw ⊢
    simp only [← hm, ← hetaI, ← hetaT] at hw ⊢
    have hetaTne : etaT ≠ 0 := by
      rw [hetaT]
      split <;> assumption
    have hetaIne : etaI ≠ 0 := by
      rw [hetaI]
      split <;> assumption
    -- the refraction cannot fail, else the weight would be zero
    have hTge : ¬ (1 + etaI / etaT * (etaI / etaT) *
        (dot bRec.wi m * dot bRec.wi m - 1) < 0) := by
      intro hcase
      have hre : refract E bRec.wi m etaI etaT = none := by
        simp only [refract]
        rw [if_pos hcase]
      simp only [hre] at hw
      exact hw rfl
    have hre : refract E bRec.wi m etaI etaT =
        some (vsub (smul (etaI / etaT * dot bRec.wi m - signum bRec.wi.z * t) m)
          (smul (etaI / etaT) bRec.wi)) := by
      simp only [refract]
      rw [if_neg hTge, ← ht]
    simp only [hre] at hw ⊢
    -- the side check must pass, else the weight would be zero
    by_cases hss : 0 ≤ cosTheta bRec.wi * cosTheta
        (vsub (smul (etaI / etaT * dot bRec.wi m - signum bRec.wi.z * t) m)
          (smul (etaI / etaT) bRec.wi))
    · simp only [if_pos hss] at hw
      exact absurd rfl hw
    simp only [if_neg hss] at hw ⊢
    have hclass : cosTheta bRec.wi * cosTheta
        (vsub (smul (etaI / etaT * dot bRec.wi m - signum bRec.wi.z * t) m)
          (smul (etaI / etaT) bRec.wi)) < 0 := not_le.mp hss
    -- decompose the nonzero weight
    have hw2 := hw
    rw [mul_ne_zero_iff] at hw2
    obtain ⟨hw3, habs⟩ := hw2
    rw [mul_ne_zero_iff] at hw3
    obtain ⟨hspecT, hrad⟩ := hw3
    have hfrac : E.dist_eval m (E.dist_transformRoughness (E.m_alphaU bRec.its))
          (E.dist_transformRoughness (E.m_alphaV bRec.its)) *
        E.dist_G bRec.wi (vsub (smul (etaI / etaT * dot bRec.wi m -
            signum bRec.wi.z * t) m) (smul (etaI / etaT) bRec.wi)) m
          (E.dist_transformRoughness (E.m_alphaU bRec.its))
          (E.dist_transformRoughness (E.m_alphaV bRec.its)) *
        dot bRec.wi m /
        (E.dist_pdf m (sampleAlphas1 E bRec).1 (sampleAlphas1 E bRec).2 *
          cosTheta bRec.wi) ≠ 0 := fun h => habs (by rw [h, abs_zero])
    rw [div_ne_zero_iff] at hfrac
    obtain ⟨hnum, hden⟩ := hfrac
    rw [mul_ne_zero_iff] at hnum hden
    obtain ⟨hnum2, hcne⟩ := hnum
    obtain ⟨hPne, hcwne⟩ := hden
    rw [mul_ne_zero_iff] at hnum2
    obtain ⟨hDne, hGne⟩ := hnum2
    -- the half-vector reconstructed by eval and pdf is the micro-normal
    have hcomp1 : bRec.component = -1 := by
      rcases hR.1 with h | h
      · exact h
      · rcases hT.1 with h2 | h2 <;> omega
    have hH : transmissionHalfVector E { bRec with wo := vsub (smul (etaI / etaT * dot bRec.wi m - signum bRec.wi.z * t) m) (smul (etaI / etaT) bRec.wi), sampledComponent := 1, sampledType := EGlossyTransmission } etaI etaT = m := by
      show smul (if E.m_intIOR < E.m_extIOR then 1 else -1)
        (normalize E (vadd (smul etaI bRec.wi) (smul etaT
          (vsub (smul (etaI / etaT * dot bRec.wi m - signum bRec.wi.z * t) m)
            (smul (etaI / etaT) bRec.wi))))) = m
      rw [trans_halfvec_sum bRec.wi m etaI etaT t hetaTne, ← hk]
      unfold normalize
      rw [dot_smul_self, hunit, mul_one, hsqrtk, smul_smul_eq, smul_smul_eq]
      have hcoef : (if E.m_intIOR < E.m_extIOR then (1 : ℚ) else -1) *
          (1 / |k|) * k = 1 := by
        rw [mul_assoc, one_div_mul_eq_div, div_abs_eq_signum k hk0]
        exact hsigma
      rw [hcoef, one_smul_eq]
    have hHfull : transmissionHalfVector E { bRec with wo := vsub (smul (etaI / etaT * dot bRec.wi m - signum bRec.wi.z * t) m) (smul (etaI / etaT) bRec.wi), sampledComponent := 1, sampledType := EGlossyTransmission } (if cosTheta ({ bRec with wo := vsub (smul (etaI / etaT * dot bRec.wi m - signum bRec.wi.z * t) m) (smul (etaI / etaT) bRec.wi), sampledComponent := 1, sampledType := EGlossyTransmission } : BSDFQueryRecord).wi < 0 then E.m_intIOR else E.m_extIOR) (if cosTheta ({ bRec with wo := vsub (smul (etaI / etaT * dot bRec.wi m - signum bRec.wi.z * t) m) (smul (etaI / etaT) bRec.wi), sampledComponent := 1, sampledType := EGlossyTransmission } : BSDFQueryRecord).wi < 0 then E.m_extIOR else E.m_intIOR) = m := by
      have h1 : (if cosTheta ({ bRec with wo := vsub (smul (etaI / etaT * dot bRec.wi m - signum bRec.wi.z * t) m) (smul (etaI / etaT) bRec.wi), sampledComponent := 1, sampledType := EGlossyTransmission } : BSDFQueryRecord).wi < 0 then E.m_intIOR else E.m_extIOR) = etaI := by
        rw [hetaI]
      have h2 : (if cosTheta ({ bRec with wo := vsub (smul (etaI / etaT * dot bRec.wi m - signum bRec.wi.z * t) m) (smul (etaI / etaT) bRec.wi), sampledComponent := 1, sampledType := EGlossyTransmission } : BSDFQueryRecord).wi < 0 then E.m_extIOR else E.m_intIOR) = etaT := by
        rw [hetaT]
      rw [h1, h2]
      exact hH
    have hD4 : E.dist_eval (transmissionHalfVector E { bRec with wo := vsub (smul (etaI / etaT * dot bRec.wi m - signum bRec.wi.z * t) m) (smul (etaI / etaT) bRec.wi), sampledComponent := 1, sampledType := EGlossyTransmission } (if cosTheta ({ bRec with wo := vsub (smul (etaI / etaT * dot bRec.wi m - signum bRec.wi.z * t) m) (smul (etaI / etaT) bRec.wi), sampledComponent := 1, sampledType := EGlossyTransmission } : BSDFQueryRecord).wi < 0 then E.m_intIOR else E.m_extIOR) (if cosTheta ({ bRec with wo := vsub (smul (etaI / etaT * dot bRec.wi m - signum bRec.wi.z * t) m) (smul (etaI / etaT) bRec.wi), sampledComponent := 1, sampledType := EGlossyTransmission } : BSDFQueryRecord).wi < 0 then E.m_extIOR else E.m_intIOR)) (E.dist_transformRoughness (E.m_alphaU ({ bRec with wo := vsub (smul (etaI / etaT * dot bRec.wi m - signum bRec.wi.z * t) m) (smul (etaI / etaT) bRec.wi), sampledComponent := 1, sampledType := EGlossyTransmission } : BSDFQueryRecord).its)) (E.dist_transformRoughness (E.m_alphaV ({ bRec with wo := vsub (smul (etaI / etaT * dot bRec.wi m - signum bRec.wi.z * t) m) (smul (etaI / etaT) bRec.wi), sampledComponent := 1, sampledType := EGlossyTransmission } : BSDFQueryRecord).its)) ≠ 0 := by
      rw [hHfull]
      exact hDne
    have heval := eval_transmissive_aux E { bRec with wo := vsub (smul (etaI / etaT * dot bRec.wi m - signum bRec.wi.z * t) m) (smul (etaI / etaT) bRec.wi), sampledComponent := 1, sampledType := EGlossyTransmission } hclass (Or.inl hcomp1) hT.2 hD4
    have hpdf := ((pdf_weighting_aux E { bRec with wo := vsub (smul (etaI / etaT * dot bRec.wi m - signum bRec.wi.z * t) m) (smul (etaI / etaT) bRec.wi), sampledComponent := 1, sampledType := EGlossyTransmission }).2 hclass).1 ⟨hR, hT⟩
    dsimp only [] at heval hpdf
    simp only [← hetaI, ← hetaT] at heval hpdf
    rw [hH] at heval hpdf
    rw [dot_refracted_m bRec.wi m etaI etaT t hunit] at heval hpdf
    rw [← hF] at heval hpdf
    rw [show etaI * dot bRec.wi m + etaT * -(signum bRec.wi.z * t) = k from by rw [hk]; ring] at heval hpdf
    rw [show (if bRec.quantity = EQuantity.eRadiance then (etaI / etaT) ^ 2 else (1 : ℚ)) = (if bRec.quantity = EQuantity.eRadiance then etaI * etaI / (etaT * etaT) else 1) from by split <;> [skip; rfl] <;> rw [div_pow, pow_two, pow_two]] at heval
    rw [heval, hpdf]
    exact trans_ratio_key _ _ F _ _ _ _ _ _ k etaT (lt_trans hbr hxi1) hDne hGne
      hcne hcwne hPne
      (neg_ne_zero.mpr (mul_ne_zero (signum_ne_zero _) (ne_of_gt ht0)))
      hk0 hetaTne
  · -- reflection chosen
    obtain ⟨hc, hcwo, hFpos, hsqrt, hD0, hG0, hP0⟩ := hrefl hbr
    have hch : hasTransmission bRec →
        ¬ (E.fresnel (dot bRec.wi (E.dist_sample s (sampleAlphas1 E bRec).1
          (sampleAlphas1 E bRec).2)) E.m_extIOR E.m_intIOR <
          (next1D sampler).1) := by
      intro _
      rw [← hm, ← hF, ← hxi]
      exact hbr
    rw [sample_reflection_eq E bRec sampler s hR hch] at hw ⊢
    simp only [← hm] at hw ⊢
    by_cases hss : cosTheta bRec.wi * cosTheta (reflect bRec.wi m) ≤ 0
    · simp only [if_pos hss] at hw
      exact absurd rfl hw
    simp only [if_neg hss] at hw ⊢
    have hclass : 0 < cosTheta bRec.wi * cosTheta (reflect bRec.wi m) :=
      not_le.mp hss
    have hw2 := hw
    rw [mul_ne_zero_iff] at hw2
    obtain ⟨hspecR, habs⟩ := hw2
    have hfrac : E.dist_eval m (E.dist_transformRoughness (E.m_alphaU bRec.its))
          (E.dist_transformRoughness (E.m_alphaV bRec.its)) *
        E.dist_G bRec.wi (reflect bRec.wi m) m
          (E.dist_transformRoughness (E.m_alphaU bRec.its))
          (E.dist_transformRoughness (E.m_alphaV bRec.its)) *
        dot bRec.wi m /
        (E.dist_pdf m (sampleAlphas1 E bRec).1 (sampleAlphas1 E bRec).2 *
          cosTheta bRec.wi) ≠ 0 := fun h => habs (by rw [h, abs_zero])
    rw [div_ne_zero_iff] at hfrac
    obtain ⟨hnum, hden⟩ := hfrac
    rw [mul_ne_zero_iff] at hnum hden
    obtain ⟨hnum2, hcne⟩ := hnum
    obtain ⟨hPne, hcwne⟩ := hden
    rw [mul_ne_zero_iff] at hnum2
    obtain ⟨hDne, hGne⟩ := hnum2
    have hH : reflectionHalfVector E { bRec with wo := reflect bRec.wi m, sampledComponent := 0, sampledType := EGlossyReflection } = m := by
      show smul (signum (cosTheta (reflect bRec.wi m)))
        (normalize E (vadd (reflect bRec.wi m) bRec.wi)) = m
      unfold normalize
      rw [hsqrt, reflect_vadd, smul_smul_eq, smul_smul_eq]
      have hcoef : signum (cosTheta (reflect bRec.wi m)) *
          (1 / (2 * dot bRec.wi m)) * (2 * dot bRec.wi m) = 1 := by
        rw [signum_of_pos hcwo]
        field_simp
      rw [hcoef, one_smul_eq]
    have hD4 : E.dist_eval (reflectionHalfVector E { bRec with wo := reflect bRec.wi m, sampledComponent := 0, sampledType := EGlossyReflection }) (E.dist_transformRoughness (E.m_alphaU ({ bRec with wo := reflect bRec.wi m, sampledComponent := 0, sampledType := EGlossyReflection } : BSDFQueryRecord).its)) (E.dist_transformRoughness (E.m_alphaV ({ bRec with wo := reflect bRec.wi m, sampledComponent := 0, sampledType := EGlossyReflection } : BSDFQueryRecord).its)) ≠ 0 := by
      rw [hH]
      exact hDne
    have heval := eval_reflective_aux E { bRec with wo := reflect bRec.wi m, sampledComponent := 0, sampledType := EGlossyReflection } hclass hR.1 hR.2 hD4
    have hpdf := ((pdf_weighting_aux E { bRec with wo := reflect bRec.wi m, sampledComponent := 0, sampledType := EGlossyReflection }).1 hclass).1 ⟨hR, hT⟩
    dsimp only [] at heval hpdf
    rw [hH] at heval hpdf
    rw [dot_reflect_self bRec.wi m hunit] at hpdf
    rw [← hF] at heval hpdf
    rw [show pdfSampleAlphas E { bRec with wo := reflect bRec.wi m, sampledComponent := 0, sampledType := EGlossyReflection } = sampleAlphas1 E bRec from rfl] at hpdf
    rw [heval, hpdf]
    exact refl_ratio_key _ F _ _ _ _ _ hFpos hc
      (lt_of_le_of_ne hD0 (Ne.symm hDne)) (lt_of_le_of_ne hG0 (Ne.symm hGne))
      (lt_of_le_of_ne hP0 (Ne.symm hPne)) hcwne

/-- Claim C1 (amended) witness: at normal incidence on the concrete 1:2
interface with both components enabled and the random draw `1/4 ≤ F =
1/2`, the reflective branch is chosen, the returned weight is nonzero,
and `eval/pdf` equals it. -/
theorem sample_eval_pdf_weight_consistency_witness :
    (sample exE exRec [1/4] (0, 0)).2.2 ≠ 0 ∧
    eval exE (sample exE exRec [1/4] (0, 0)).1 EMeasure.eSolidAngle /
        pdf exE (sample exE exRec [1/4] (0, 0)).1 EMeasure.eSolidAngle =
      (sample exE exRec [1/4] (0, 0)).2.2 := by
  have hch : hasTransmission exRec →
      ¬ (exE.fresnel (dot exRec.wi (exE.dist_sample (0, 0)
          (sampleAlphas1 exE exRec).1 (sampleAlphas1 exE exRec).2))
        exE.m_extIOR exE.m_intIOR < (next1D [1/4]).1) :=
    fun _ => by norm_num [exE, exRec, next1D]
  have hw : (sample exE exRec [1/4] (0, 0)).2.2 ≠ 0 := by
    rw [sample_reflection_eq exE exRec [1/4] (0, 0) ⟨Or.inl rfl, rfl⟩ hch]
    norm_num [exE, exSqrt, exRec, dot, smul, vsub, vadd, cosTheta, reflect,
      sampleAlphas1, hasReflection, hasTransmission, next1D]
  refine ⟨hw, ?_⟩
  exact sample_eval_pdf_weight_consistency exE exRec [1/4] (0, 0)
    ⟨0, 0, 1⟩ (1/2) (1/4) 1 2 1 (-1)
    ⟨Or.inl rfl, rfl⟩ ⟨Or.inl rfl, rfl⟩
    rfl rfl rfl
    (by norm_num [exE, exRec, cosTheta])
    (by norm_num [exE, exRec, cosTheta])
    (by norm_num [exE, exSqrt, exRec, dot, cosTheta])
    (by norm_num [exE, exRec, dot, signum])
    (by norm_num)
    (by norm_num [dot])
    (by norm_num [exE])
    (by norm_num [exE])
    (fun _ => by
      refine ⟨?_, ?_, ?_, ?_, ?_, ?_, ?_⟩ <;>
        norm_num [exE, exSqrt, exRec, dot, smul, vsub, vadd, cosTheta,
          reflect, sampleAlphas1])
    (fun h => absurd h (by norm_num))
    hw

end RoughDielectric

end RoughDielectricModel
